import Mathlib

/-!
# cs354-raytracing: kd-tree construction and recursive ray transport

A shallow embedding of `src/scene/kdTree.h`, `src/RayTracer.cpp` and the parts of
`src/scene/material.cpp` they call, followed by theorems about the embedded code.

Conventions of the embedding
* a C++ `double` is an exact rational (`ℚ`): there is no rounding, no infinity and no NaN;
* a C++ `int` is an `Int`; conversions to `size_t` and `unsigned char` are written out
  with an explicit modulus;
* `glm` is a library outside the repository; its functions are given their documented
  meaning on exact numbers. The square root is `Rat.sqrt`, which is exact on the squares
  of rationals, is never negative and is zero at zero only. Off those squares its value is
  not the one the code computes: a theorem that depends on the value of a square root
  takes it of a square, by a hypothesis or at a concrete input;
* pointers to scene-owned objects (`Geometry*`, `Material`) are the objects themselves;
* an object that the source leaves uninitialised is read from an explicit parameter.
-/

namespace Raytracer

/-! ## glm vectors -/

/-- The type `glm::dvec3`, three doubles. -/
structure Vec3 where
  x : ℚ
  y : ℚ
  z : ℚ
deriving DecidableEq

namespace Vec3

/-- The value of `glm::dvec3(0,0,0)`, also the value of a default constructed `glm::dvec3`
(the zero initialising constructor of glm before 0.9.9). -/
def zero : Vec3 := ⟨0, 0, 0⟩

/-- Componentwise sum, `a + b`. -/
def add (a b : Vec3) : Vec3 := ⟨a.x + b.x, a.y + b.y, a.z + b.z⟩

/-- Componentwise difference, `a - b`. -/
def sub (a b : Vec3) : Vec3 := ⟨a.x - b.x, a.y - b.y, a.z - b.z⟩

/-- Componentwise product, `a * b` of two vectors. -/
def mul (a b : Vec3) : Vec3 := ⟨a.x * b.x, a.y * b.y, a.z * b.z⟩

/-- Product with a scalar, `k * v` or `v * k`. -/
def scale (k : ℚ) (v : Vec3) : Vec3 := ⟨k * v.x, k * v.y, k * v.z⟩

/-- Unary minus, `-v`. -/
def neg (v : Vec3) : Vec3 := ⟨-v.x, -v.y, -v.z⟩

/-- Component access `v[axis]`. glm asserts `0 <= axis < 3`; an index outside that range
reads the last component here. -/
def idx (v : Vec3) (axis : Int) : ℚ :=
  if axis = 0 then v.x else if axis = 1 then v.y else v.z

/-- Component update `v[axis] = val`, with the same convention as `idx`. -/
def set (v : Vec3) (axis : Int) (val : ℚ) : Vec3 :=
  if axis = 0 then ⟨val, v.y, v.z⟩ else if axis = 1 then ⟨v.x, val, v.z⟩ else ⟨v.x, v.y, val⟩

end Vec3

instance : Add Vec3 := ⟨Vec3.add⟩
instance : Sub Vec3 := ⟨Vec3.sub⟩
instance : Mul Vec3 := ⟨Vec3.mul⟩
instance : Neg Vec3 := ⟨Vec3.neg⟩
instance : Inhabited Vec3 := ⟨Vec3.zero⟩

/-- The function `glm::dot`. -/
def dot (a b : Vec3) : ℚ := a.x * b.x + a.y * b.y + a.z * b.z

/-- The function `glm::length`, the square root of `dot v v`. The value is the length where
`dot v v` is the square of a rational; elsewhere only its sign and its test against zero
are those of the code. -/
def length (v : Vec3) : ℚ := Rat.sqrt (dot v v)

/-- The function `glm::normalize`, `v` divided by its length. The value is the normalised
vector where `dot v v` is the square of a rational, and is not stated elsewhere. -/
def normalize (v : Vec3) : Vec3 := Vec3.scale (1 / length v) v

/-- The function `glm::refract(I, N, eta)`: the zero vector when
`k = 1 - eta^2 (1 - dot(N,I)^2)` is negative, else `eta*I - (eta*dot(N,I) + sqrt k)*N`.
The value is that of the code where `k` is negative or the square of a rational, and is not
stated elsewhere. -/
def refract (I N : Vec3) (eta : ℚ) : Vec3 :=
  let dotValue := dot N I
  let k := 1 - eta * eta * (1 - dotValue * dotValue)
  if k < 0 then Vec3.zero
  else Vec3.scale eta I - Vec3.scale (eta * dotValue + Rat.sqrt k) N

/-- The scalar `glm::clamp(x, lo, hi)`, that is `min(max(x, lo), hi)`. -/
def clampScalar (x lo hi : ℚ) : ℚ := min (max x lo) hi

/-- The function `glm::clamp(v, lo, hi)` on a vector, componentwise. -/
def clamp (v : Vec3) (lo hi : ℚ) : Vec3 :=
  ⟨clampScalar v.x lo hi, clampScalar v.y lo hi, clampScalar v.z lo hi⟩

/-! ## Rays, materials, intersections -/

/-- The enumeration `ray::RayType`. -/
inductive RayType where
  | VISIBILITY
  | REFLECTION
  | REFRACTION
deriving DecidableEq

/-- The class `ray`: origin `p`, direction `d`, the output pixel (an offset into the
buffer), the generation counter, the attenuation and the kind. -/
structure Ray where
  p : Vec3
  d : Vec3
  pixel : Int
  ctr : Nat
  atten : Vec3
  type : RayType
deriving DecidableEq

/-- The method `ray::at`, the point at parameter `t`. -/
def Ray.at (r : Ray) (t : ℚ) : Vec3 := r.p + Vec3.scale t r.d

/-- The class `TextureMap`: the image size and the loaded bytes (`none` for a null `data`). -/
structure TextureMap where
  width : Int
  height : Int
  data : Option (List Nat)

/-- The method `TextureMap::getMappedValue` (material.cpp:90-103). -/
def TextureMap.getMappedValue (_tm : TextureMap) (_coord : ℚ × ℚ) : Vec3 := ⟨1, 1, 1⟩

/-- The class `MaterialParameter`: a constant and an optional texture. -/
structure MaterialParameter where
  _value : Vec3
  _textureMap : Option TextureMap

/-- The method `MaterialParameter::value` (material.cpp:125-131), on the texture
coordinates of the intersection. -/
def MaterialParameter.value (mp : MaterialParameter) (uvCoordinates : ℚ × ℚ) : Vec3 :=
  match mp._textureMap with
  | some tm => tm.getMappedValue uvCoordinates
  | none => mp._value

/-- Modelled from the spec: the class `Material` of `material.h`, a set of coefficients,
each a `MaterialParameter`, with a shininess exponent and a refractive index. -/
structure Material where
  _ke : MaterialParameter
  _ka : MaterialParameter
  _ks : MaterialParameter
  _kd : MaterialParameter
  _kr : MaterialParameter
  _kt : MaterialParameter
  _shininess : ℚ
  _index : ℚ

/-- The class `isect`: hit distance, normal, material and texture coordinates. -/
structure Isect where
  t : ℚ
  N : Vec3
  material : Material
  uvCoordinates : ℚ × ℚ

/-- Modelled from the spec: `Material::kr`, the reflective coefficient evaluated at an
intersection. -/
def Material.kr (m : Material) (i : Isect) : Vec3 := m._kr.value i.uvCoordinates

/-- Modelled from the spec: `Material::kt`, the transmissive coefficient evaluated at an
intersection. -/
def Material.kt (m : Material) (i : Isect) : Vec3 := m._kt.value i.uvCoordinates

/-- Modelled from the spec: `Material::index`, the refractive index. -/
def Material.index (m : Material) (_i : Isect) : ℚ := m._index

/-! ## kd-tree (kdTree.h) -/

/-- Modelled from the spec: the class `BoundingBox` of `bbox.h`, a min/max corner pair. -/
structure BoundingBox where
  bmin : Vec3
  bmax : Vec3
deriving DecidableEq

namespace BoundingBox

/-- Modelled from the spec: the constructor from two corners, which normalises so that
min is at most max in every component. -/
def ofCorners (a b : Vec3) : BoundingBox :=
  ⟨⟨min a.x b.x, min a.y b.y, min a.z b.z⟩, ⟨max a.x b.x, max a.y b.y, max a.z b.z⟩⟩

/-- The accessor `getMin`. -/
def getMin (b : BoundingBox) : Vec3 := b.bmin

/-- The accessor `getMax`. -/
def getMax (b : BoundingBox) : Vec3 := b.bmax

/-- Modelled from the spec: `setMin(axis, v)` clips the lower face on one axis. -/
def setMin (b : BoundingBox) (axis : Int) (v : ℚ) : BoundingBox := ⟨b.bmin.set axis v, b.bmax⟩

/-- Modelled from the spec: `setMax(axis, v)` clips the upper face on one axis. -/
def setMax (b : BoundingBox) (axis : Int) (v : ℚ) : BoundingBox := ⟨b.bmin, b.bmax.set axis v⟩

/-- Modelled from the spec: `area()` is the total surface area, the sum of the three
face-pair areas. -/
def area (b : BoundingBox) : ℚ :=
  let dx := b.bmax.x - b.bmin.x
  let dy := b.bmax.y - b.bmin.y
  let dz := b.bmax.z - b.bmin.z
  2 * (dx * dy + dy * dz + dz * dx)

end BoundingBox

/-- The primitive capability the tree consumes (class `Geometry`): the ray test
`intersect(r, i)`, `getBoundingBox()` and `getNormal()`. -/
structure Geometry where
  intersect : Ray → Option Isect
  boundingBox : BoundingBox
  normal : Vec3

/-- The method `getBoundingBox`. -/
def Geometry.getBoundingBox (g : Geometry) : BoundingBox := g.boundingBox

/-- The method `getNormal`. -/
def Geometry.getNormal (g : Geometry) : Vec3 := g.normal

/-- Conversion of a C++ `double` to `int`: truncation toward zero. -/
def toInt (q : ℚ) : Int := if 0 ≤ q then ⌊q⌋ else ⌈q⌉

/-- Conversion of an `int` to `size_t` (64 bit). -/
def toSizeT (n : Int) : Nat := (n % 2 ^ 64).toNat

/-- The classes `Node`, `SplitNode` and `LeafNode` as one tagged type. A split node is
built by `SplitNode(int _axis, int _pos, Node _l, Node _r)` and stores
`axis, position, left, right`; a leaf is built by `LeafNode(_obj)` and stores `objList`. -/
inductive Node where
  | SplitNode (axis : Int) (position : ℚ) (left : Node) (right : Node)
  | LeafNode (objList : List Geometry)

/-- The constructor `SplitNode::SplitNode` (kdTree.h:34-38): the position argument has
type `int`, so the `double` handed to it is truncated before it is stored. -/
def SplitNode.new (_axis : Int) (_pos : ℚ) (_l _r : Node) : Node :=
  Node.SplitNode _axis (toInt _pos : Int) _l _r

/-- The method `SplitNode::findIntersection` (kdTree.h:40-64); the result is the returned
flag together with the intersection record `i`, passed by reference. -/
def SplitNode.findIntersection (_axis : Int) (_position : ℚ) (_left _right : Node)
    (_r : Ray) (i : Isect) (_t_min _t_max : Int) : Bool × Isect :=
  (false, i)

/-- The method `LeafNode::findIntersection` (kdTree.h:76-85). -/
def LeafNode.findIntersection (_objList : List Geometry)
    (_r : Ray) (i : Isect) (_t_min _t_max : Int) : Bool × Isect :=
  (false, i)

/-- The call `node.findIntersection(r, i, t_min, t_max)` on either kind of node. -/
def Node.findIntersection (n : Node) (r : Ray) (i : Isect) (t_min t_max : Int) : Bool × Isect :=
  match n with
  | Node.SplitNode axis position left right =>
      SplitNode.findIntersection axis position left right r i t_min t_max
  | Node.LeafNode objList => LeafNode.findIntersection objList r i t_min t_max

/-- The number of split nodes on the longest path from the node down to a leaf. -/
def Node.height : Node → Nat
  | Node.SplitNode _ _ l r => 1 + max l.height r.height
  | Node.LeafNode _ => 0

/-- Modelled from the spec: brute-force linear testing of all primitives (the scene
intersection of `scene.cpp` without the tree): every primitive is tested and the closest
hit is kept. -/
def bruteForceIntersect (objList : List Geometry) (r : Ray) : Option Isect :=
  objList.foldl (fun best obj =>
    match obj.intersect r, best with
    | some c_i, some b => if c_i.t < b.t then some c_i else some b
    | some c_i, none => some c_i
    | none, b => b) none

/-- The struct `Plane` (kdTree.h:89-98). -/
structure Plane where
  axis : Int
  position : ℚ
  leftCount : Int
  rightCount : Int
  leftBBoxArea : ℚ
  rightBBoxArea : ℚ
  leftBBox : BoundingBox
  rightBBox : BoundingBox
deriving DecidableEq

/-- The method `kdTree::countLeft` (kdTree.h:209-211). -/
def countLeft (_objList : List Geometry) (_plane : Plane) : Int := 0

/-- The method `kdTree::countRight` (kdTree.h:212-214). -/
def countRight (_objList : List Geometry) (_plane : Plane) : Int := 0

/-- The two candidates `p1`, `p2` that the first loop of `findBestSplitPlane` pushes for
one primitive on one axis (kdTree.h:161-182). `Plane p1; Plane p2;` are declared without an
initialiser, so the fields the loop does not assign keep the contents `uninit`. -/
def candidatePair (uninit : Plane) (bbox : BoundingBox) (axis : Int) (obj : Geometry) :
    List Plane :=
  let obj_bbox := obj.getBoundingBox
  let pos1 := obj_bbox.getMin.idx axis
  let p1 : Plane :=
    { uninit with
      position := pos1
      axis := axis
      leftBBox := (BoundingBox.ofCorners bbox.getMin bbox.getMax).setMax axis pos1
      rightBBox := (BoundingBox.ofCorners bbox.getMin bbox.getMax).setMin axis pos1 }
  let pos2 := obj_bbox.getMax.idx axis
  let p2 : Plane :=
    { uninit with
      position := pos2
      axis := axis
      leftBBox := (BoundingBox.ofCorners bbox.getMin bbox.getMax).setMax axis pos2
      rightBBox := (BoundingBox.ofCorners bbox.getMin bbox.getMax).setMin axis pos2 }
  [p1, p2]

/-- The vector `candidates` after the first loop nest of `findBestSplitPlane`
(kdTree.h:157-184): for each axis 0, 1, 2 and each primitive, the pair above. -/
def candidates (uninit : Plane) (objList : List Geometry) (bbox : BoundingBox) : List Plane :=
  ([0, 1, 2] : List Int).flatMap fun axis => objList.flatMap fun obj => candidatePair uninit bbox axis obj

/-- The body of the second loop (kdTree.h:188-192): the counts and areas are stored in the
local copy `plane`, not in the element of `candidates`. The result is the new value of the
local `plane`. -/
def scoreStep (objList : List Geometry) (_plane : Plane) (v : Plane) : Plane :=
  let plane := v
  let plane := { plane with leftCount := countLeft objList plane }
  let plane := { plane with leftBBoxArea := plane.leftBBox.area }
  let plane := { plane with rightCount := countRight objList plane }
  let plane := { plane with rightBBoxArea := plane.rightBBox.area }
  plane

/-- The body of the third loop (kdTree.h:197-205) on the pair of locals
`(bestPlane, plane)`: `minSam` is declared inside the loop and initialised with `SAM`. -/
def selectStep (st : Plane × Plane) (q : Plane) : Plane × Plane :=
  let plane := q
  let SAM : ℚ := plane.leftCount * plane.leftBBoxArea + plane.rightCount * plane.rightBBoxArea
  let minSam := SAM
  if SAM < minSam then (plane, plane) else (st.1, plane)

/-- The method `kdTree::findBestSplitPlane` (kdTree.h:151-208). `Plane bestPlane; Plane plane;`
are declared without an initialiser: their initial contents are the parameter `uninit`. -/
def findBestSplitPlane (uninit : Plane) (objList : List Geometry) (bbox : BoundingBox) : Plane :=
  let cands := candidates uninit objList bbox
  let bestPlane := uninit
  let plane := uninit
  let plane := cands.foldl (scoreStep objList) plane
  let st := cands.foldl selectStep (bestPlane, plane)
  st.1

/-- The body of the partition loop of `buildTree` (kdTree.h:124-139) for one primitive, on
the pair `(leftList, rightList)`. -/
def partitionStep (bestPlane : Plane) (lists : List Geometry × List Geometry) (obj : Geometry) :
    List Geometry × List Geometry :=
  let obj_bbox := obj.getBoundingBox
  let min := obj_bbox.getMin.idx bestPlane.axis
  let max := obj_bbox.getMax.idx bestPlane.axis
  let N := length obj.getNormal
  let leftList := if min < bestPlane.position then lists.1 ++ [obj] else lists.1
  let rightList := if max > bestPlane.position then lists.2 ++ [obj] else lists.2
  if bestPlane.position = max ∧ bestPlane.position = min ∧ N < 0 then
    (leftList ++ [obj], rightList)
  else if bestPlane.position = max ∧ bestPlane.position = min ∧ N ≥ 0 then
    (leftList, rightList ++ [obj])
  else (leftList, rightList)

/-- The partition loop of `buildTree` (kdTree.h:116-140): `leftList` and `rightList` start
empty and every primitive of `objList` is visited in order. -/
def partitionLists (bestPlane : Plane) (objList : List Geometry) :
    List Geometry × List Geometry :=
  objList.foldl (partitionStep bestPlane) ([], [])

/-- The method `kdTree::buildTree` (kdTree.h:110-149). The member counter `depth` is
threaded through: it is an argument and the second component of the result. The two
recursive calls are evaluated left first; each is handed the current value of the member
`depth` as its `depthLimit`. The C++ recursion need not end, so the model takes a bound
`fuel` on the nesting of calls and answers `none` when the bound is reached. The counter is
an unbounded integer. -/
def buildTree (uninit : Plane) : Nat → Int → List Geometry → BoundingBox → Int → Int →
    Option (Node × Int)
  | 0, _, _, _, _, _ => none
  | fuel + 1, depth, objList, bbox, depthLimit, leafSize =>
    if objList.length ≤ toSizeT leafSize then some (Node.LeafNode objList, depth)
    else
      let depth := depth + 1
      if depth = depthLimit then some (Node.LeafNode objList, depth)
      else
        let bestPlane := findBestSplitPlane uninit objList bbox
        let lists := partitionLists bestPlane objList
        let leftList := lists.1
        let rightList := lists.2
        if rightList.isEmpty || leftList.isEmpty then some (Node.LeafNode objList, depth)
        else
          match buildTree uninit fuel depth leftList bestPlane.leftBBox depth leafSize with
          | none => none
          | some (l, depth) =>
            match buildTree uninit fuel depth rightList bestPlane.rightBBox depth leafSize with
            | none => none
            | some (r, depth) =>
              some (SplitNode.new bestPlane.axis bestPlane.position l r, depth)

/-! ## Recursive transport (RayTracer.cpp) -/

/-- The state of the class `RayTracer` and the collaborators its tracing methods call:
`scene->intersect(r, i)`, `m.shade(scene, r, i)`, the cube map (`none` for a null pointer),
`scene->getCamera().rayThrough(x, y, r)`, `traceUI->getDepth()`, `traceUI->aaSwitch()`,
`sceneLoaded()` and the buffer size. -/
structure RayTracer where
  intersect : Ray → Option Isect
  shade : Material → Ray → Isect → Vec3
  cubemap : Option (Ray → Vec3)
  rayThrough : ℚ → ℚ → Ray → Ray
  getDepth : Int
  aaSwitch : Bool
  sceneLoaded : Bool
  buffer_width : Int
  buffer_height : Int

/-- What one call of `traceRay` produced: the returned colour, the number of evaluations of
`shade` made by the call and the calls below it, and the rays handed to the recursive
`traceRay` calls below it, each with the `depth` argument of that call, in call order. -/
structure Traced where
  color : Vec3
  shades : Nat
  rays : List (Ray × Int)

/-- The vector `reflectDirection` of `traceRay` (RayTracer.cpp:114-115). -/
def reflectDirection (rayDir N : Vec3) : Vec3 :=
  let c1 := -(dot N rayDir)
  rayDir + Vec3.scale c1 (Vec3.scale 2 N)

/-- The ray `refRay` of `traceRay` (RayTracer.cpp:117). -/
def refRay (r : Ray) (i : Isect) : Ray :=
  ⟨r.at i.t, normalize (reflectDirection r.d i.N), r.pixel, r.ctr, r.atten, RayType.REFLECTION⟩

/-- The ray that `traceRay` traces for the transmissive term (RayTracer.cpp:127-151):
`tirRay` when `dot(refractD, rayDir) == 0`, else `refractRay`. -/
def transmitRay (r : Ray) (i : Isect) : Ray :=
  let m := i.material
  let rayDir := r.d
  let sel : Vec3 × ℚ × ℚ :=
    if dot rayDir i.N > 0 then (-i.N, m.index i, 1)
    else (i.N, 1, m.index i)
  let normal := sel.1
  let ni := sel.2.1
  let nt := sel.2.2
  let refractD := refract rayDir normal (ni / nt)
  let refractRay : Ray := ⟨r.at i.t, refractD, r.pixel, r.ctr, r.atten, RayType.REFRACTION⟩
  if dot refractD rayDir = 0 then
    ⟨r.at i.t, reflectDirection rayDir i.N, r.pixel, r.ctr, r.atten, RayType.REFRACTION⟩
  else refractRay

/-- The method `RayTracer::traceRay` (RayTracer.cpp:82-171). The parameter `double& t` is
never read or written and is left out. `colorC` is default constructed, so it is black
until assigned. -/
def traceRay (rt : RayTracer) (r : Ray) (thresh : Vec3) (depth : Int) : Traced :=
  match rt.intersect r with
  | some i =>
    let m := i.material
    let colorC := rt.shade m r i
    let kt := m.kt i
    let kr := m.kr i
    if 0 ≤ depth then
      let refl := traceRay rt (refRay r i) thresh (depth - 1)
      let reflectColor := Vec3.zero + refl.color
      let colorC := colorC + kr * reflectColor
      if length kt ≠ 0 then
        let sub := traceRay rt (transmitRay r i) thresh (depth - 1)
        let refractColor := Vec3.zero + sub.color
        ⟨colorC + kt * refractColor, 1 + refl.shades + sub.shades,
          (refRay r i, depth - 1) :: refl.rays ++ (transmitRay r i, depth - 1) :: sub.rays⟩
      else ⟨colorC, 1 + refl.shades, (refRay r i, depth - 1) :: refl.rays⟩
    else ⟨colorC, 1, []⟩
  | none =>
    match rt.cubemap with
    | some cm => ⟨cm r, 0, []⟩
    | none => ⟨Vec3.zero, 0, []⟩
termination_by (depth + 1).toNat
decreasing_by all_goals omega

/-- The method `RayTracer::trace` (RayTracer.cpp:36-47). Clearing the debugging cache of
the scene has no effect on the result and is left out. -/
def trace (rt : RayTracer) (x y : ℚ) (pixel : Int) (ctr : Nat) : Vec3 :=
  let r : Ray := ⟨⟨0, 0, 0⟩, ⟨0, 0, 0⟩, pixel, ctr, ⟨1, 1, 1⟩, RayType.VISIBILITY⟩
  let r := rt.rayThrough x y r
  let ret := (traceRay rt r ⟨1, 1, 1⟩ rt.getDepth).color
  let ret := clamp ret 0 1
  ret

/-- The store `pixel[k] = (int)(255.0 * c)`: the product is truncated to an `int`, which is
then converted to `unsigned char`. -/
def toByte (c : ℚ) : Nat := (toInt (255 * c) % 256).toNat

/-- The method `RayTracer::tracePixel` (RayTracer.cpp:49-77): the returned colour, and the
three bytes written at `pixel[0..2]` (`none` when the method returns before the stores). -/
def tracePixel (rt : RayTracer) (i j : Int) (ctr : Nat) : Vec3 × Option (Nat × Nat × Nat) :=
  let col : Vec3 := ⟨0, 0, 0⟩
  if !rt.sceneLoaded then (col, none)
  else
    let x : ℚ := (i : ℚ) / (rt.buffer_width : ℚ)
    let y : ℚ := (j : ℚ) / (rt.buffer_height : ℚ)
    let x_offs : ℚ := (1 / 4) / (rt.buffer_width : ℚ)
    let y_offs : ℚ := (1 / 4) / (rt.buffer_height : ℚ)
    let pixel : Int := (i + j * rt.buffer_width) * 3
    let col :=
      if rt.aaSwitch then
        Vec3.scale (1 / 4) (trace rt (x + x_offs) (y + y_offs) pixel ctr) +
        Vec3.scale (1 / 4) (trace rt (x - x_offs) (y - y_offs) pixel ctr) +
        Vec3.scale (1 / 4) (trace rt (x + x_offs) (y - y_offs) pixel ctr) +
        Vec3.scale (1 / 4) (trace rt (x - x_offs) (y + y_offs) pixel ctr)
      else trace rt x y pixel ctr
    (col, some (toByte col.x, toByte col.y, toByte col.z))

/-- The method `RayTracer::traceImage` (RayTracer.cpp:257-273): `traceSetup(w, h)` sets the
buffer size, then `tracePixel(i, j, 0)` runs for every `i < w` and `j < h`. The result lists
what each of those calls returned and wrote, in loop order. The arguments `bs` and `thresh`
are not read. -/
def traceImage (rt : RayTracer) (w h : Int) (_bs : Int) (_thresh : ℚ) :
    List (Vec3 × Option (Nat × Nat × Nat)) :=
  let rt := { rt with buffer_width := w, buffer_height := h }
  (List.range w.toNat).flatMap fun i =>
    (List.range h.toNat).map fun j => tracePixel rt (i : Int) (j : Int) 0

/-! ## Shading and textures (material.cpp) -/

/-- The function `std::pow(x, y)` of the C++ library, exact when the exponent `y` is an
integer; for another exponent the value is not the one the code computes, and no theorem
depends on it there. -/
def pow (x y : ℚ) : ℚ := x ^ ⌊y⌋

/-- The function `glm::max(v, s)` of a vector and a scalar, componentwise. -/
def maxScalar (v : Vec3) (s : ℚ) : Vec3 := ⟨max v.x s, max v.y s, max v.z s⟩

/-- The light capability `Material::shade` consumes (class `Light`): `getDirection(P)`,
`getColor()`, `distanceAttenuation(P)` and `shadowAttenuation(r, P)`. -/
structure Light where
  getDirection : Vec3 → Vec3
  getColor : Vec3
  distanceAttenuation : Vec3 → ℚ
  shadowAttenuation : Ray → Vec3 → Vec3

/-- The part of the class `Scene` that `Material::shade` reads: `ambient()` and the lights
from `beginLights()` to `endLights()`. -/
structure Scene where
  ambient : Vec3
  lights : List Light

/-- Modelled from the spec: `Material::ke`, the emissive coefficient at an intersection. -/
def Material.ke (m : Material) (i : Isect) : Vec3 := m._ke.value i.uvCoordinates

/-- Modelled from the spec: `Material::ka`, the ambient coefficient at an intersection. -/
def Material.ka (m : Material) (i : Isect) : Vec3 := m._ka.value i.uvCoordinates

/-- Modelled from the spec: `Material::kd`, the diffuse coefficient at an intersection. -/
def Material.kd (m : Material) (i : Isect) : Vec3 := m._kd.value i.uvCoordinates

/-- Modelled from the spec: `Material::ks`, the specular coefficient at an intersection. -/
def Material.ks (m : Material) (i : Isect) : Vec3 := m._ks.value i.uvCoordinates

/-- Modelled from the spec: `Material::shininess`, the shininess exponent. -/
def Material.shininess (m : Material) (_i : Isect) : ℚ := m._shininess

/-- The body of the loop over the lights in `Material::shade` (material.cpp:57-70): the new
value of `phong` after the light `pLight`. -/
def shadeStep (m : Material) (r : Ray) (i : Isect) (phong : Vec3) (pLight : Light) : Vec3 :=
  let intersect := r.at i.t
  let rinv := Vec3.scale (-1) r.d
  let atten := Vec3.scale (pLight.distanceAttenuation intersect)
    (pLight.shadowAttenuation r intersect)
  let lightdir := dot (pLight.getDirection intersect) i.N
  let ri := Vec3.scale (-1) (pLight.getDirection intersect)
  let R := ri - Vec3.scale (dot ri i.N) (Vec3.scale 2 i.N)
  let diffuseTerm := Vec3.scale (max lightdir 0) (m.kd i * pLight.getColor)
  let specTerm := maxScalar
    (Vec3.scale (pow (dot R rinv) (m.shininess i)) (m.ks i * pLight.getColor)) 0
  phong + atten * (diffuseTerm + specTerm)

/-- The method `Material::shade` (material.cpp:20-75). -/
def Material.shade (m : Material) (scene : Scene) (r : Ray) (i : Isect) : Vec3 :=
  let phong := m.ke i + m.ka i * scene.ambient
  scene.lights.foldl (shadeStep m r i) phong

/-- The contribution of one light as the Phong formula of the specification words it:
`atten * (diffuse + specular)` with `atten` the product of distance and shadow attenuation,
`diffuse = kd * lightColor * max(dot(N, lightDir), 0)` and
`specular = ks * lightColor * max(dot(reflectVec, -rayDirection), 0) ^ shininess`, where
`reflectVec` mirrors the incoming light direction about `N`. -/
def phongLightSpec (m : Material) (r : Ray) (i : Isect) (pLight : Light) : Vec3 :=
  let P := r.at i.t
  let atten := Vec3.scale (pLight.distanceAttenuation P) (pLight.shadowAttenuation r P)
  let lightDir := pLight.getDirection P
  let incoming := -lightDir
  let reflectVec := incoming - Vec3.scale (2 * dot incoming i.N) i.N
  let diffuse := Vec3.scale (max (dot i.N lightDir) 0) (m.kd i * pLight.getColor)
  let specular := Vec3.scale (pow (max (dot reflectVec (-r.d)) 0) (m.shininess i))
    (m.ks i * pLight.getColor)
  atten * (diffuse + specular)

/-- The Phong colour as the specification words it: emissive, plus ambient times the scene
ambient, plus the contributions of all lights. -/
def phongSpec (m : Material) (scene : Scene) (r : Ray) (i : Isect) : Vec3 :=
  scene.lights.foldl (fun c pLight => c + phongLightSpec m r i pLight)
    (m.ke i + m.ka i * scene.ambient)

/-- The result of an `int` operation whose exact value is `n`: the value wrapped into the
32 bit two's complement range. -/
def wrapInt (n : Int) : Int := (n + 2 ^ 31) % 2 ^ 32 - 2 ^ 31

/-- The position `pos` that `TextureMap::getPixelAt` computes (material.cpp:113-119): the
coordinates are cut at `width - 1` and `height - 1`, then `pos = (y * width + x) * 3`. -/
def TextureMap.pixelPos (tm : TextureMap) (x y : Int) : Int :=
  let x := if x ≥ tm.width then wrapInt (tm.width - 1) else x
  let y := if y ≥ tm.height then wrapInt (tm.height - 1) else y
  wrapInt (wrapInt (wrapInt (y * tm.width) + x) * 3)

/-- The read `data[pos]` of one byte; a read outside the array is not modelled and gives 0. -/
def readByte (data : List Nat) (pos : Int) : ℚ :=
  if 0 ≤ pos then ((data.getD pos.toNat 0 : Nat) : ℚ) else 0

/-- The method `TextureMap::getPixelAt` (material.cpp:106-123). -/
def TextureMap.getPixelAt (tm : TextureMap) (x y : Int) : Vec3 :=
  match tm.data with
  | none => ⟨1, 1, 1⟩
  | some data =>
    let pos := tm.pixelPos x y
    ⟨readByte data pos / 255, readByte data (pos + 1) / 255, readByte data (pos + 2) / 255⟩

/-! ## Concrete inputs on which the code is evaluated -/

/-- A constant material parameter. -/
def constParam (v : Vec3) : MaterialParameter := ⟨v, none⟩

/-- A perfect mirror: reflective coefficient 1, transmissive coefficient 0. -/
def mirrorMaterial : Material :=
  { _ke := constParam ⟨0, 0, 0⟩, _ka := constParam ⟨0, 0, 0⟩, _ks := constParam ⟨0, 0, 0⟩,
    _kd := constParam ⟨1, 1, 1⟩, _kr := constParam ⟨1, 1, 1⟩, _kt := constParam ⟨0, 0, 0⟩,
    _shininess := 1, _index := 1 }

/-- A hit at distance 1 on a surface whose unit normal is the z axis. -/
def floorHit : Isect := ⟨1, ⟨0, 0, 1⟩, mirrorMaterial, (0, 0)⟩

/-- The box from (-1,-1,-1) to (1,1,1). -/
def cube : BoundingBox := ⟨⟨-1, -1, -1⟩, ⟨1, 1, 1⟩⟩

/-- A primitive bounded by `cube` that every ray hits at distance 1. -/
def cubeGeom : Geometry := ⟨fun _ => some floorHit, cube, ⟨0, 0, 1⟩⟩

/-- A ray from (0,0,2) straight down, with a unit direction. -/
def downRay : Ray := ⟨⟨0, 0, 2⟩, ⟨0, 0, -1⟩, 0, 0, ⟨1, 1, 1⟩, RayType.VISIBILITY⟩

/-- The same ray with a direction of length 2. -/
def longRay : Ray := ⟨⟨0, 0, 2⟩, ⟨0, 0, -2⟩, 0, 0, ⟨1, 1, 1⟩, RayType.VISIBILITY⟩

/-- Uninitialised plane storage that reads as zero in every field. -/
def zeroPlane : Plane := ⟨0, 0, 0, 0, 0, 0, ⟨⟨0, 0, 0⟩, ⟨0, 0, 0⟩⟩, ⟨⟨0, 0, 0⟩, ⟨0, 0, 0⟩⟩⟩

/-- A scene in which every ray hits the mirror `floorHit`, shaded with the constant grey
(1/2,1/2,1/2); no cube map; recursion depth 0 configured. -/
def mirrorRoom : RayTracer :=
  { intersect := fun _ => some floorHit
    shade := fun _ _ _ => ⟨1 / 2, 1 / 2, 1 / 2⟩
    cubemap := none
    rayThrough := fun _ _ r => r
    getDepth := 0
    aaSwitch := false
    sceneLoaded := true
    buffer_width := 4
    buffer_height := 4 }

/-- An empty scene: no ray hits anything and no cube map is configured. -/
def emptyRoom : RayTracer :=
  { mirrorRoom with intersect := fun _ => none }

/-- A primitive whose box reaches one unit to each side of a plane on every axis; no ray
hits it. -/
def straddler (p : Plane) : Geometry :=
  ⟨fun _ => none,
    ⟨⟨p.position - 1, p.position - 1, p.position - 1⟩,
      ⟨p.position + 1, p.position + 1, p.position + 1⟩⟩,
    ⟨0, 0, 1⟩⟩

/-- Every channel of the colour lies in the interval from 0 to 1. -/
def Vec3.inUnit (v : Vec3) : Prop :=
  (0 ≤ v.x ∧ v.x ≤ 1) ∧ (0 ≤ v.y ∧ v.y ≤ 1) ∧ (0 ≤ v.z ∧ v.z ≤ 1)

/-- The mirror direction `d - 2N(d.N)` of a direction `d` about a normal `N`. -/
def mirrorDirection (d N : Vec3) : Vec3 := d - Vec3.scale (2 * dot d N) N

/-- A glossy material: specular coefficient 1, shininess exponent 2, nothing else. -/
def shinyMaterial : Material :=
  { _ke := constParam ⟨0, 0, 0⟩, _ka := constParam ⟨0, 0, 0⟩, _ks := constParam ⟨1, 1, 1⟩,
    _kd := constParam ⟨0, 0, 0⟩, _kr := constParam ⟨0, 0, 0⟩, _kt := constParam ⟨0, 0, 0⟩,
    _shininess := 2, _index := 1 }

/-- A hit at distance 1 on a glossy surface whose unit normal is the z axis. -/
def shinyHit : Isect := ⟨1, ⟨0, 0, 1⟩, shinyMaterial, (0, 0)⟩

/-- A ray coming down at a shallow angle, with the unit direction (-12/13, 0, -5/13). -/
def obliqueRay : Ray :=
  ⟨⟨12 / 13, 0, 5 / 13⟩, ⟨-12 / 13, 0, -5 / 13⟩, 0, 0, ⟨1, 1, 1⟩, RayType.VISIBILITY⟩

/-- A white light in the unit direction (3/5, 0, 4/5) above the surface, not attenuated
and not shadowed. -/
def highLight : Light :=
  { getDirection := fun _ => ⟨3 / 5, 0, 4 / 5⟩
    getColor := ⟨1, 1, 1⟩
    distanceAttenuation := fun _ => 1
    shadowAttenuation := fun _ _ => ⟨1, 1, 1⟩ }

/-- The same light behind an opaque occluder: its shadow attenuation is 0. -/
def shadowedLight : Light :=
  { highLight with shadowAttenuation := fun _ _ => ⟨0, 0, 0⟩ }

/-- A scene without ambient light, lit by `highLight`. -/
def oneLightScene : Scene := ⟨⟨0, 0, 0⟩, [highLight]⟩

/-- Glass: transmissive coefficient 1, refractive index 2, nothing else. -/
def glassMaterial : Material :=
  { _ke := constParam ⟨0, 0, 0⟩, _ka := constParam ⟨0, 0, 0⟩, _ks := constParam ⟨0, 0, 0⟩,
    _kd := constParam ⟨0, 0, 0⟩, _kr := constParam ⟨0, 0, 0⟩, _kt := constParam ⟨1, 1, 1⟩,
    _shininess := 1, _index := 2 }

/-- A hit at distance 1 on glass whose unit normal is the z axis. -/
def glassHit : Isect := ⟨1, ⟨0, 0, 1⟩, glassMaterial, (0, 0)⟩

/-- A ray leaving the glass upward at a shallow angle, with the unit direction
(4/5, 0, 3/5). -/
def exitingRay : Ray := ⟨⟨0, 0, -1⟩, ⟨4 / 5, 0, 3 / 5⟩, 0, 0, ⟨1, 1, 1⟩, RayType.REFRACTION⟩

/-- A scene in which every ray hits the glass `glassHit`, shaded with a constant grey. -/
def glassRoom : RayTracer :=
  { mirrorRoom with intersect := fun _ => some glassHit }

/-- A primitive whose box spans `lo..hi` on the x axis and 0..1 on the others; no ray
hits it. -/
def slab (lo hi : ℚ) : Geometry := ⟨fun _ => none, ⟨⟨lo, 0, 0⟩, ⟨hi, 1, 1⟩⟩, ⟨0, 0, 1⟩⟩

/-- Uninitialised plane storage that reads as the plane x = 1/2. -/
def halfPlane : Plane := { zeroPlane with position := 1 / 2 }

/-- A flat primitive lying in the plane x = 0 whose reference normal points to negative
x; no ray hits it. -/
def flatGeom : Geometry := ⟨fun _ => none, ⟨⟨0, -1, -1⟩, ⟨0, 1, 1⟩⟩, ⟨-1, 0, 0⟩⟩

/-- A loaded texture of 2 by 2 black texels. -/
def blackTexture : TextureMap := ⟨2, 2, some [0, 0, 0, 0, 0, 0, 0, 0, 0, 0, 0, 0]⟩

/-- A loaded texture of 2 by 1 texels: one black, one white. -/
def twoTexels : TextureMap := ⟨2, 1, some [0, 0, 0, 255, 255, 255]⟩

/-- The vector `normal` that `traceRay` hands to `refract` (RayTracer.cpp:129-140): `-N`
when `dot(rayDir, N) > 0` (exiting), else `N` (entering). -/
def orientedNormal (r : Ray) (i : Isect) : Vec3 :=
  if dot r.d i.N > 0 then -i.N else i.N

/-- The ratio `ni/nt` that `traceRay` hands to `refract` (RayTracer.cpp:127-141):
`index/1` when `dot(rayDir, N) > 0` (exiting), else `1/index` (entering). -/
def indexRatio (r : Ray) (i : Isect) : ℚ :=
  if dot r.d i.N > 0 then i.material.index i / 1 else 1 / i.material.index i

/-- A loaded texture of 50000 by 50000 texels, whose 7500000000 bytes are all 0. -/
def hugeTexture : TextureMap := ⟨50000, 50000, some (List.replicate 7500000000 0)⟩

/-- The sum of two vectors, by components. -/
theorem Vec3.add_def (a b : Vec3) : a + b = ⟨a.x + b.x, a.y + b.y, a.z + b.z⟩ := rfl

/-- The difference of two vectors, by components. -/
theorem Vec3.sub_def (a b : Vec3) : a - b = ⟨a.x - b.x, a.y - b.y, a.z - b.z⟩ := rfl

/-- The product of two vectors, by components. -/
theorem Vec3.mul_def (a b : Vec3) : a * b = ⟨a.x * b.x, a.y * b.y, a.z * b.z⟩ := rfl

/-- The opposite of a vector, by components. -/
theorem Vec3.neg_def (a : Vec3) : -a = ⟨-a.x, -a.y, -a.z⟩ := rfl

/-! ### Traversal -/

/-- On every node, `findIntersection` returns `false` and leaves the record untouched. -/
theorem Node.findIntersection_eq (n : Node) (r : Ray) (i : Isect) (t_min t_max : Int) :
    n.findIntersection r i t_min t_max = (false, i) := by
  cases n <;> rfl

/-- With a single primitive and a leaf size of one, `buildTree` returns the leaf holding it. -/
theorem buildTree_single (uninit : Plane) (g : Geometry) (bbox : BoundingBox) (limit : Int) :
    buildTree uninit 1 0 [g] bbox limit 1 = some (Node.LeafNode [g], 0) := by
  simp [buildTree, toSizeT]

/-- C1, evaluated on the code: for the one-primitive list `[cubeGeom]` and the ray
`downRay`, brute-force linear testing finds a hit at distance 1, `buildTree` returns a
tree, and `findIntersection` on that tree reports no hit, whatever the interval and the
record passed in. -/
theorem kdtree_misses_brute_force_hit :
    (bruteForceIntersect [cubeGeom] downRay).map (fun i => i.t) = some 1 ∧
    ∃ tree d, buildTree zeroPlane 1 0 [cubeGeom] cube 10 1 = some (tree, d) ∧
      ∀ (i : Isect) (t_min t_max : Int),
        (tree.findIntersection downRay i t_min t_max).1 = false := by
  refine ⟨?_, Node.LeafNode [cubeGeom], 0, buildTree_single _ _ _ _, ?_⟩
  · simp [bruteForceIntersect, cubeGeom, floorHit]
  · intro i t_min t_max
    rw [Node.findIntersection_eq]

/-! ### Split plane selection -/

/-- The third loop never replaces `bestPlane`. -/
theorem selectStep_fst (st : Plane × Plane) (q : Plane) : (selectStep st q).1 = st.1 := by
  simp [selectStep]

/-- Folding the third loop over any list of candidates leaves `bestPlane` as it was. -/
theorem foldl_selectStep_fst (cands : List Plane) (st : Plane × Plane) :
    (cands.foldl selectStep st).1 = st.1 := by
  induction cands generalizing st with
  | nil => rfl
  | cons q qs ih => rw [List.foldl_cons, ih, selectStep_fst]

/-- The plane returned by `findBestSplitPlane` is the initial content of `bestPlane`,
whatever the primitives and the box. -/
theorem findBestSplitPlane_eq_uninit (uninit : Plane) (objList : List Geometry)
    (bbox : BoundingBox) : findBestSplitPlane uninit objList bbox = uninit := by
  simp [findBestSplitPlane, foldl_selectStep_fst]

/-- C6, evaluated on the code: for the one-primitive list `[cubeGeom]` in the box `cube`,
with the uninitialised locals reading as zero, the plane that `findBestSplitPlane` returns
is not one of its candidates: it has position 0 while every candidate lies at -1 or 1. -/
theorem findBestSplitPlane_not_a_candidate :
    (findBestSplitPlane zeroPlane [cubeGeom] cube).position = 0 ∧
    (∀ p ∈ candidates zeroPlane [cubeGeom] cube, p.position = -1 ∨ p.position = 1) ∧
    findBestSplitPlane zeroPlane [cubeGeom] cube ∉ candidates zeroPlane [cubeGeom] cube := by
  have hpos : ∀ p ∈ candidates zeroPlane [cubeGeom] cube, p.position = -1 ∨ p.position = 1 := by
    intro p hp
    simp [candidates, candidatePair, cubeGeom, cube, Geometry.getBoundingBox,
      BoundingBox.getMin, BoundingBox.getMax, Vec3.idx] at hp
    rcases hp with h | h | h | h | h | h <;> simp [h]
  refine ⟨by rw [findBestSplitPlane_eq_uninit]; rfl, hpos, ?_⟩
  intro hmem
  rw [findBestSplitPlane_eq_uninit] at hmem
  rcases hpos _ hmem with h | h <;> simp [zeroPlane] at h

/-! ### Partition step of `buildTree` -/

/-- One step of the partition loop keeps what is already in `leftList`. -/
theorem partitionStep_left_mono (bestPlane : Plane) (lists : List Geometry × List Geometry)
    (obj x : Geometry) (hx : x ∈ lists.1) : x ∈ (partitionStep bestPlane lists obj).1 := by
  unfold partitionStep
  dsimp only
  split_ifs <;> simp [hx]

/-- One step of the partition loop keeps what is already in `rightList`. -/
theorem partitionStep_right_mono (bestPlane : Plane) (lists : List Geometry × List Geometry)
    (obj x : Geometry) (hx : x ∈ lists.2) : x ∈ (partitionStep bestPlane lists obj).2 := by
  unfold partitionStep
  dsimp only
  split_ifs <;> simp [hx]

/-- The rest of the loop keeps what is already in `leftList`. -/
theorem foldl_partitionStep_left_mono (bestPlane : Plane) (objList : List Geometry)
    (lists : List Geometry × List Geometry) (x : Geometry) (hx : x ∈ lists.1) :
    x ∈ (objList.foldl (partitionStep bestPlane) lists).1 := by
  induction objList generalizing lists with
  | nil => exact hx
  | cons o os ih => exact ih _ (partitionStep_left_mono bestPlane lists o x hx)

/-- The rest of the loop keeps what is already in `rightList`. -/
theorem foldl_partitionStep_right_mono (bestPlane : Plane) (objList : List Geometry)
    (lists : List Geometry × List Geometry) (x : Geometry) (hx : x ∈ lists.2) :
    x ∈ (objList.foldl (partitionStep bestPlane) lists).2 := by
  induction objList generalizing lists with
  | nil => exact hx
  | cons o os ih => exact ih _ (partitionStep_right_mono bestPlane lists o x hx)

/-- A primitive whose minimum lies below the plane is pushed on `leftList`. -/
theorem partitionStep_left_of_lt (bestPlane : Plane) (lists : List Geometry × List Geometry)
    (obj : Geometry)
    (h : obj.getBoundingBox.getMin.idx bestPlane.axis < bestPlane.position) :
    obj ∈ (partitionStep bestPlane lists obj).1 := by
  unfold partitionStep
  dsimp only
  split_ifs <;> simp

/-- A primitive whose maximum lies above the plane is pushed on `rightList`. -/
theorem partitionStep_right_of_gt (bestPlane : Plane) (lists : List Geometry × List Geometry)
    (obj : Geometry)
    (h : obj.getBoundingBox.getMax.idx bestPlane.axis > bestPlane.position) :
    obj ∈ (partitionStep bestPlane lists obj).2 := by
  unfold partitionStep
  dsimp only
  split_ifs <;> simp

/-- A primitive with `min <= max` on the split axis is pushed on one of the lists by its
own step of the loop. -/
theorem partitionStep_keeps (bestPlane : Plane) (lists : List Geometry × List Geometry)
    (obj : Geometry)
    (hbox : obj.getBoundingBox.getMin.idx bestPlane.axis ≤
      obj.getBoundingBox.getMax.idx bestPlane.axis) :
    obj ∈ (partitionStep bestPlane lists obj).1 ∨ obj ∈ (partitionStep bestPlane lists obj).2 := by
  rcases lt_or_le (obj.getBoundingBox.getMin.idx bestPlane.axis) bestPlane.position with h1 | h1
  · exact Or.inl (partitionStep_left_of_lt bestPlane lists obj h1)
  · rcases lt_or_le bestPlane.position (obj.getBoundingBox.getMax.idx bestPlane.axis) with h2 | h2
    · exact Or.inr (partitionStep_right_of_gt bestPlane lists obj h2)
    · have hmax : bestPlane.position = obj.getBoundingBox.getMax.idx bestPlane.axis :=
        le_antisymm (le_trans h1 hbox) h2
      have hmin : bestPlane.position = obj.getBoundingBox.getMin.idx bestPlane.axis :=
        le_antisymm h1 (le_trans hbox h2)
      unfold partitionStep
      dsimp only
      rcases lt_or_le (length obj.getNormal) 0 with hN | hN
      · left
        rw [if_pos ⟨hmax, hmin, hN⟩]
        simp
      · right
        rw [if_neg (fun h => absurd h.2.2 (not_lt.mpr hN)), if_pos ⟨hmax, hmin, hN⟩]
        simp

/-- C7: in the partition loop of `buildTree`, for every split plane, a primitive of
`objList` whose bounding box has `min <= max` on the split axis ends up in `leftList` or in
`rightList`, and one with `min < position < max` ends up in both. -/
theorem partition_never_drops (bestPlane : Plane) (objList : List Geometry) (obj : Geometry)
    (hmem : obj ∈ objList)
    (hbox : obj.getBoundingBox.getMin.idx bestPlane.axis ≤
      obj.getBoundingBox.getMax.idx bestPlane.axis) :
    (obj ∈ (partitionLists bestPlane objList).1 ∨ obj ∈ (partitionLists bestPlane objList).2) ∧
    (obj.getBoundingBox.getMin.idx bestPlane.axis < bestPlane.position ∧
        bestPlane.position < obj.getBoundingBox.getMax.idx bestPlane.axis →
      obj ∈ (partitionLists bestPlane objList).1 ∧ obj ∈ (partitionLists bestPlane objList).2) := by
  unfold partitionLists
  generalize (([], []) : List Geometry × List Geometry) = lists
  induction objList generalizing lists with
  | nil => simp at hmem
  | cons o os ih =>
    rw [List.foldl_cons]
    rcases List.mem_cons.mp hmem with rfl | hos
    · refine ⟨?_, fun hst => ⟨?_, ?_⟩⟩
      · rcases partitionStep_keeps bestPlane lists obj hbox with h | h
        · exact Or.inl (foldl_partitionStep_left_mono bestPlane os _ obj h)
        · exact Or.inr (foldl_partitionStep_right_mono bestPlane os _ obj h)
      · exact foldl_partitionStep_left_mono bestPlane os _ obj
          (partitionStep_left_of_lt bestPlane lists obj hst.1)
      · exact foldl_partitionStep_right_mono bestPlane os _ obj
          (partitionStep_right_of_gt bestPlane lists obj hst.2)
    · exact ih hos _

/-- C7 at a concrete input: `cubeGeom` straddles the plane x = 0 and is put in both lists. -/
theorem partition_never_drops_witness :
    (cubeGeom ∈ (partitionLists zeroPlane [cubeGeom]).1 ∨
      cubeGeom ∈ (partitionLists zeroPlane [cubeGeom]).2) ∧
    (cubeGeom.getBoundingBox.getMin.idx zeroPlane.axis < zeroPlane.position ∧
        zeroPlane.position < cubeGeom.getBoundingBox.getMax.idx zeroPlane.axis →
      cubeGeom ∈ (partitionLists zeroPlane [cubeGeom]).1 ∧
        cubeGeom ∈ (partitionLists zeroPlane [cubeGeom]).2) :=
  partition_never_drops zeroPlane [cubeGeom] cubeGeom (List.mem_singleton.mpr rfl)
    (by norm_num [cubeGeom, cube, zeroPlane, Geometry.getBoundingBox, BoundingBox.getMin,
      BoundingBox.getMax, Vec3.idx])

/-! ### Terminal condition of `buildTree` -/

/-- The terminal test of `buildTree` as it is written (kdTree.h:113-115): a call in which the
number of primitives is at most `leafSize` (an `int`, so below 2^31), or in which the
incremented counter is equal to the limit (`++depth == depthLimit`), returns a leaf holding
exactly `objList`. One level of nesting is enough for the call to return. -/
theorem buildTree_terminal_leaf (uninit : Plane) (fuel : Nat) (depth : Int)
    (objList : List Geometry) (bbox : BoundingBox) (depthLimit leafSize : Int)
    (hint : leafSize < 2 ^ 31)
    (h : (objList.length : Int) ≤ leafSize ∨ depth + 1 = depthLimit) :
    ∃ d, buildTree uninit (fuel + 1) depth objList bbox depthLimit leafSize
      = some (Node.LeafNode objList, d) := by
  unfold buildTree
  by_cases hsz : objList.length ≤ toSizeT leafSize
  · exact ⟨depth, by rw [if_pos hsz]⟩
  · rw [if_neg hsz]
    rcases h with h | h
    · exfalso
      apply hsz
      unfold toSizeT
      have h0 : (0 : Int) ≤ leafSize := le_trans (Int.ofNat_nonneg _) h
      rw [Int.emod_eq_of_lt h0 (by omega)]
      omega
    · exact ⟨depth + 1, by simp [h]⟩

/-- The terminal test at a concrete input: two primitives with a leaf size of 5 give a leaf
with both. -/
theorem buildTree_terminal_leaf_witness :
    (5 : Int) < 2 ^ 31 ∧
    (([cubeGeom, cubeGeom].length : Int) ≤ 5 ∨ (0 : Int) + 1 = 10) ∧
    ∃ d, buildTree zeroPlane (0 + 1) 0 [cubeGeom, cubeGeom] cube 10 5
      = some (Node.LeafNode [cubeGeom, cubeGeom], d) :=
  ⟨by norm_num, Or.inl (by simp),
    buildTree_terminal_leaf zeroPlane 0 0 [cubeGeom, cubeGeom] cube 10 5 (by norm_num)
      (Or.inl (by simp))⟩

/-! ### Depth limit of `buildTree` -/

/-- Both copies of `cubeGeom` straddle the plane x = 0, so both go to both lists. -/
theorem partitionLists_two_cubes :
    partitionLists zeroPlane [cubeGeom, cubeGeom]
      = ([cubeGeom, cubeGeom], [cubeGeom, cubeGeom]) := by
  norm_num [partitionLists, partitionStep, zeroPlane, cubeGeom, cube,
    Geometry.getBoundingBox, BoundingBox.getMin, BoundingBox.getMax, Vec3.idx]

/-- A call on the two cubes whose limit differs from the incremented counter does not
return within any bound on the nesting: it recurses on the same list with the counter as
the new limit. -/
theorem buildTree_two_cubes_none (fuel : Nat) :
    ∀ (depth : Int) (bbox : BoundingBox) (depthLimit : Int), depth + 1 ≠ depthLimit →
      buildTree zeroPlane fuel depth [cubeGeom, cubeGeom] bbox depthLimit 1 = none := by
  induction fuel with
  | zero => intro depth bbox depthLimit _; rfl
  | succ n ih =>
    intro depth bbox depthLimit hne
    unfold buildTree
    have hsz : ¬ ([cubeGeom, cubeGeom].length ≤ toSizeT 1) := by
      norm_num [toSizeT]
    rw [if_neg hsz]
    simp only [findBestSplitPlane_eq_uninit, partitionLists_two_cubes, if_neg hne]
    rw [ih (depth + 1) zeroPlane.leftBBox (depth + 1) (by omega)]
    simp

/-- C8, evaluated on the code: with two primitives bounded by `cube`, a leaf size of 1, a
depth limit of 3, a fresh counter and the uninitialised plane reading as zero, no bound on
the nesting of calls lets `buildTree` return. -/
theorem buildTree_does_not_terminate :
    ¬ ∃ fuel : Nat, (buildTree zeroPlane fuel 0 [cubeGeom, cubeGeom] cube 3 1).isSome = true := by
  rintro ⟨fuel, h⟩
  rw [buildTree_two_cubes_none fuel 0 cube 3 (by norm_num)] at h
  simp at h

/-- Two copies of the straddler of a plane both go to both lists of that plane. -/
theorem partitionLists_two_straddlers (p : Plane) :
    partitionLists p [straddler p, straddler p]
      = ([straddler p, straddler p], [straddler p, straddler p]) := by
  have hmin : (straddler p).getBoundingBox.getMin.idx p.axis = p.position - 1 := by
    unfold straddler Geometry.getBoundingBox BoundingBox.getMin Vec3.idx
    split_ifs <;> rfl
  have hmax : (straddler p).getBoundingBox.getMax.idx p.axis = p.position + 1 := by
    unfold straddler Geometry.getBoundingBox BoundingBox.getMax Vec3.idx
    split_ifs <;> rfl
  simp [partitionLists, partitionStep, hmin, hmax]

/-- Whatever the uninitialised plane reads as, there is a two-primitive list on which
`buildTree` with leaf size 1 and depth limit 3 does not return within any bound on the
nesting of calls. -/
theorem buildTree_diverges_for_every_plane (uninit : Plane) :
    ∀ (fuel : Nat) (depth : Int) (bbox : BoundingBox) (depthLimit : Int),
      depth + 1 ≠ depthLimit →
      buildTree uninit fuel depth [straddler uninit, straddler uninit] bbox depthLimit 1
        = none := by
  intro fuel
  induction fuel with
  | zero => intro depth bbox depthLimit _; rfl
  | succ n ih =>
    intro depth bbox depthLimit hne
    unfold buildTree
    have hsz : ¬ ([straddler uninit, straddler uninit].length ≤ toSizeT 1) := by
      norm_num [toSizeT]
    rw [if_neg hsz]
    simp only [findBestSplitPlane_eq_uninit, partitionLists_two_straddlers, if_neg hne]
    rw [ih (depth + 1) uninit.leftBBox (depth + 1) (by omega)]
    simp

/-! ### Recursive transport -/

/-- The length of the zero vector is zero. -/
theorem length_zero_vec : length ⟨0, 0, 0⟩ = 0 := by
  norm_num [length, dot]

/-- The square root of the embedding vanishes only on numbers that are not positive. -/
theorem sqrt_eq_zero_imp (q : ℚ) (h : Rat.sqrt q = 0) : q ≤ 0 := by
  unfold Rat.sqrt at h
  have hden : Nat.sqrt q.den ≠ 0 := by
    have := Nat.sqrt_pos.mpr q.den_pos
    omega
  rw [Rat.mkRat_eq_zero hden] at h
  unfold Int.sqrt at h
  have h2 : Nat.sqrt q.num.toNat = 0 := by exact_mod_cast h
  rw [Nat.sqrt_eq_zero] at h2
  exact Rat.num_nonpos.mp (Int.toNat_eq_zero.mp h2)

/-- The test `length(v) != 0.0` of the source is exact in the embedding: the length is zero
for the zero vector only. -/
theorem length_eq_zero_iff (v : Vec3) : length v = 0 ↔ v = ⟨0, 0, 0⟩ := by
  constructor
  · intro h
    have hle : dot v v ≤ 0 := sqrt_eq_zero_imp _ h
    unfold dot at hle
    obtain ⟨x, y, z⟩ := v
    have hx : x = 0 := by nlinarith [sq_nonneg x, sq_nonneg y, sq_nonneg z]
    have hy : y = 0 := by nlinarith [sq_nonneg x, sq_nonneg y, sq_nonneg z]
    have hz : z = 0 := by nlinarith [sq_nonneg x, sq_nonneg y, sq_nonneg z]
    simp [hx, hy, hz]
  · rintro rfl
    exact length_zero_vec

/-- A miss: `traceRay` returns the cube map colour, or black without a cube map, evaluates
no shade and traces no further ray. -/
theorem traceRay_miss (rt : RayTracer) (r : Ray) (thresh : Vec3) (depth : Int)
    (hmiss : rt.intersect r = none) :
    traceRay rt r thresh depth =
      match rt.cubemap with
      | some cm => ⟨cm r, 0, []⟩
      | none => ⟨Vec3.zero, 0, []⟩ := by
  rw [traceRay]
  simp only [hmiss]

/-- A hit with a negative depth: one shade evaluation and no further ray. -/
theorem traceRay_hit_neg (rt : RayTracer) (r : Ray) (thresh : Vec3) (depth : Int) (i : Isect)
    (hhit : rt.intersect r = some i) (hd : depth < 0) :
    traceRay rt r thresh depth = ⟨rt.shade i.material r i, 1, []⟩ := by
  rw [traceRay]
  simp only [hhit, if_neg (not_le.mpr hd)]

/-- A hit with a depth of 0 or more on a material without transmission: the reflection ray
is traced with `depth - 1` and its colour, weighted by `kr`, is added. -/
theorem traceRay_hit_opaque (rt : RayTracer) (r : Ray) (thresh : Vec3) (depth : Int)
    (i : Isect) (hhit : rt.intersect r = some i) (hd : 0 ≤ depth)
    (hkt : length (i.material.kt i) = 0) :
    traceRay rt r thresh depth =
      ⟨rt.shade i.material r i
          + i.material.kr i * (Vec3.zero + (traceRay rt (refRay r i) thresh (depth - 1)).color),
        1 + (traceRay rt (refRay r i) thresh (depth - 1)).shades,
        (refRay r i, depth - 1) :: (traceRay rt (refRay r i) thresh (depth - 1)).rays⟩ := by
  rw [traceRay]
  simp only [hhit, if_pos hd, hkt, ne_eq, not_true_eq_false, if_false]

/-- A hit with a depth of 0 or more: the first ray handed to a recursive call is the
reflection ray `refRay`, with `depth - 1`. -/
theorem traceRay_first_ray (rt : RayTracer) (r : Ray) (thresh : Vec3) (depth : Int)
    (i : Isect) (hhit : rt.intersect r = some i) (hd : 0 ≤ depth) :
    (traceRay rt r thresh depth).rays.head? = some (refRay r i, depth - 1) := by
  rw [traceRay]
  simp only [hhit, if_pos hd]
  split_ifs <;> simp

/-- C3: for every ray and every depth, when the scene reports no intersection and no cube
map is configured, `traceRay` returns black. -/
theorem traceRay_miss_black (rt : RayTracer) (r : Ray) (thresh : Vec3) (depth : Int)
    (hmiss : rt.intersect r = none) (hcm : rt.cubemap = none) :
    (traceRay rt r thresh depth).color = ⟨0, 0, 0⟩ := by
  rw [traceRay_miss rt r thresh depth hmiss, hcm]
  rfl

/-- C3 at a concrete input: the empty scene at depth 3. -/
theorem traceRay_miss_black_witness :
    emptyRoom.intersect downRay = none ∧ emptyRoom.cubemap = none ∧
    (traceRay emptyRoom downRay ⟨1, 1, 1⟩ 3).color = ⟨0, 0, 0⟩ :=
  ⟨rfl, rfl, traceRay_miss_black emptyRoom downRay ⟨1, 1, 1⟩ 3 rfl rfl⟩

/-- C2, evaluated on the code: in the scene `mirrorRoom` with depth 0, `traceRay` makes one
recursive call (the reflection ray, with depth -1), evaluates `shade` twice, and returns
(1,1,1) where `shade` gives (1/2,1/2,1/2). -/
theorem traceRay_depth_zero_recurses :
    (traceRay mirrorRoom downRay ⟨1, 1, 1⟩ 0).rays = [(refRay downRay floorHit, -1)] ∧
    (traceRay mirrorRoom downRay ⟨1, 1, 1⟩ 0).shades = 2 ∧
    (traceRay mirrorRoom downRay ⟨1, 1, 1⟩ 0).color = ⟨1, 1, 1⟩ ∧
    mirrorRoom.shade floorHit.material downRay floorHit = ⟨1 / 2, 1 / 2, 1 / 2⟩ := by
  have hkt : length (floorHit.material.kt floorHit) = 0 := length_zero_vec
  have h0 := traceRay_hit_opaque mirrorRoom downRay ⟨1, 1, 1⟩ 0 floorHit rfl le_rfl hkt
  have h1 := traceRay_hit_neg mirrorRoom (refRay downRay floorHit) ⟨1, 1, 1⟩ (0 - 1) floorHit
    rfl (by norm_num)
  rw [h1] at h0
  rw [h0]
  refine ⟨by norm_num, by norm_num, ?_, rfl⟩
  show (⟨_, _, _⟩ : Vec3) = _
  norm_num [mirrorRoom, floorHit, mirrorMaterial, Material.kr, MaterialParameter.value,
    constParam, Vec3.zero, Vec3.add_def, Vec3.mul_def]

/-! ### Reflection direction -/

/-- The vector `reflectDirection` of the source is the mirror direction `d - 2N(d.N)`. -/
theorem reflectDirection_eq_mirror (d N : Vec3) : reflectDirection d N = mirrorDirection d N := by
  simp only [reflectDirection, mirrorDirection, Vec3.add_def, Vec3.sub_def, Vec3.scale, dot,
    Vec3.mk.injEq]
  refine ⟨by ring, by ring, by ring⟩

/-- The mirror direction of a unit vector about a unit normal is a unit vector. -/
theorem dot_mirror_self (d N : Vec3) (hd : dot d d = 1) (hN : dot N N = 1) :
    dot (mirrorDirection d N) (mirrorDirection d N) = 1 := by
  simp only [mirrorDirection, Vec3.sub_def, Vec3.scale, dot] at *
  linear_combination hd + 4 * (d.x * N.x + d.y * N.y + d.z * N.z) ^ 2 * hN

/-- About a unit normal, the mirror direction has the opposite normal component. -/
theorem dot_mirror_normal (d N : Vec3) (hN : dot N N = 1) :
    dot (mirrorDirection d N) N = -(dot d N) := by
  simp only [mirrorDirection, Vec3.sub_def, Vec3.scale, dot] at *
  linear_combination (-2 * (d.x * N.x + d.y * N.y + d.z * N.z)) * hN

/-- Normalising a vector of length 1 leaves it unchanged. -/
theorem normalize_of_unit (v : Vec3) (hv : dot v v = 1) : normalize v = v := by
  have hlen : length v = 1 := by
    unfold length
    rw [hv]
    norm_num
  simp [normalize, hlen, Vec3.scale]

/-- About a unit normal, the mirror direction is as long as the direction itself. -/
theorem dot_mirror_mirror (d N : Vec3) (hN : dot N N = 1) :
    dot (mirrorDirection d N) (mirrorDirection d N) = dot d d := by
  simp only [mirrorDirection, Vec3.sub_def, Vec3.scale, dot] at *
  linear_combination 4 * (d.x * N.x + d.y * N.y + d.z * N.z) ^ 2 * hN

/-- Where the length of the incoming direction is a number `q` of the embedding
(`dot d d = q * q` with `q > 0`), the square root is exact and the direction of the
reflection ray is the mirror direction divided by `q`. -/
theorem refRay_direction_of_length (r : Ray) (i : Isect) (q : ℚ) (hq : 0 < q)
    (hlen : dot r.d r.d = q * q) (hN : dot i.N i.N = 1) :
    (refRay r i).d = Vec3.scale (1 / q) (mirrorDirection r.d i.N) := by
  have hdir : (refRay r i).d = normalize (mirrorDirection r.d i.N) := by
    rw [← reflectDirection_eq_mirror]
    rfl
  have hsq : length (mirrorDirection r.d i.N) = q := by
    unfold length
    rw [dot_mirror_mirror r.d i.N hN, hlen, Rat.sqrt_eq, abs_of_pos hq]
  rw [hdir, normalize, hsq]

/-- C4, as the code has it: for every hit with a depth of 0 or more, every incoming ray
direction `d` of unit length and every unit normal `N`, the first ray `traceRay` hands to a
recursive call is the reflection ray, its direction is the mirror direction `d - 2N(d.N)`,
and the dot product of that direction with `N` is `-dot(d, N)`. -/
theorem reflection_ray_direction (rt : RayTracer) (r : Ray) (thresh : Vec3) (depth : Int)
    (i : Isect) (hhit : rt.intersect r = some i) (hdepth : 0 ≤ depth)
    (hN : dot i.N i.N = 1) (hd : dot r.d r.d = 1) :
    (traceRay rt r thresh depth).rays.head? = some (refRay r i, depth - 1) ∧
    (refRay r i).d = mirrorDirection r.d i.N ∧
    dot (refRay r i).d i.N = -(dot r.d i.N) := by
  have hunit : (refRay r i).d = mirrorDirection r.d i.N := by
    rw [refRay_direction_of_length r i 1 one_pos (by rw [hd]; norm_num) hN]
    simp [Vec3.scale]
  exact ⟨traceRay_first_ray rt r thresh depth i hhit hdepth, hunit,
    by rw [hunit, dot_mirror_normal r.d i.N hN]⟩

/-- C4 at a concrete input: the unit ray `obliqueRay`, direction (-12/13, 0, -5/13),
hitting the mirror `floorHit` is reflected to (-12/13, 0, 5/13). -/
theorem reflection_ray_direction_witness :
    dot floorHit.N floorHit.N = 1 ∧ dot obliqueRay.d obliqueRay.d = 1 ∧
    (traceRay mirrorRoom obliqueRay ⟨1, 1, 1⟩ 0).rays.head?
      = some (refRay obliqueRay floorHit, 0 - 1) ∧
    (refRay obliqueRay floorHit).d = ⟨-12 / 13, 0, 5 / 13⟩ ∧
    dot (refRay obliqueRay floorHit).d floorHit.N = -(dot obliqueRay.d floorHit.N) :=
  have hN : dot floorHit.N floorHit.N = 1 := by norm_num [dot, floorHit]
  have hd : dot obliqueRay.d obliqueRay.d = 1 := by norm_num [dot, obliqueRay]
  have hm : mirrorDirection obliqueRay.d floorHit.N = ⟨-12 / 13, 0, 5 / 13⟩ := by
    norm_num [mirrorDirection, obliqueRay, floorHit, dot, Vec3.scale, Vec3.sub_def]
  have h := reflection_ray_direction mirrorRoom obliqueRay ⟨1, 1, 1⟩ 0 floorHit rfl le_rfl hN hd
  ⟨hN, hd, h.1, h.2.1.trans hm, h.2.2⟩

/-- C4 as stated fails for a direction that is not of unit length: for the ray `longRay`
with direction (0,0,-2) hitting the unit normal (0,0,1), the reflection ray that `traceRay`
spawns has direction (0,0,1), while `d - 2N(d.N)` is (0,0,2); its dot product with `N` is 1,
while `-dot(d, N)` is 2. -/
theorem reflection_ray_long_direction :
    dot floorHit.N floorHit.N = 1 ∧
    ((traceRay mirrorRoom longRay ⟨1, 1, 1⟩ 0).rays.head?).map (fun q => q.1.d)
      = some ⟨0, 0, 1⟩ ∧
    mirrorDirection longRay.d floorHit.N = ⟨0, 0, 2⟩ ∧
    (⟨0, 0, 1⟩ : Vec3) ≠ ⟨0, 0, 2⟩ ∧
    dot ⟨0, 0, 1⟩ floorHit.N = 1 ∧ -(dot longRay.d floorHit.N) = 2 := by
  have hm : mirrorDirection longRay.d floorHit.N = ⟨0, 0, 2⟩ := by
    norm_num [mirrorDirection, longRay, floorHit, dot, Vec3.scale, Vec3.sub_def]
  have hdir : (refRay longRay floorHit).d = ⟨0, 0, 1⟩ := by
    have h : (refRay longRay floorHit).d = normalize (reflectDirection longRay.d floorHit.N) := rfl
    rw [h, reflectDirection_eq_mirror, hm]
    norm_num [normalize, length, dot, Vec3.scale]
  refine ⟨by norm_num [dot, floorHit], ?_, hm, by simp, by norm_num [dot, floorHit],
    by norm_num [dot, floorHit, longRay]⟩
  rw [traceRay_first_ray mirrorRoom longRay ⟨1, 1, 1⟩ 0 floorHit rfl le_rfl]
  simp [hdir]

/-! ### Clamping and quantisation -/

/-- The scalar clamp to the interval from 0 to 1 lands in that interval. -/
theorem clampScalar_unit (x : ℚ) : 0 ≤ clampScalar x 0 1 ∧ clampScalar x 0 1 ≤ 1 :=
  ⟨le_min (le_max_right _ _) zero_le_one, min_le_right _ _⟩

/-- The vector clamp to the interval from 0 to 1 lands in that interval on every channel. -/
theorem clamp_inUnit (v : Vec3) : (clamp v 0 1).inUnit :=
  ⟨clampScalar_unit v.x, clampScalar_unit v.y, clampScalar_unit v.z⟩

/-- The colour returned by `trace` has every channel between 0 and 1. -/
theorem trace_inUnit (rt : RayTracer) (x y : ℚ) (pixel : Int) (ctr : Nat) :
    (trace rt x y pixel ctr).inUnit :=
  clamp_inUnit _

/-- The average of four colours with channels between 0 and 1 has channels between 0 and 1. -/
theorem average_inUnit (a b c d : Vec3) (ha : a.inUnit) (hb : b.inUnit) (hc : c.inUnit)
    (hd : d.inUnit) :
    (Vec3.scale (1 / 4) a + Vec3.scale (1 / 4) b + Vec3.scale (1 / 4) c
      + Vec3.scale (1 / 4) d).inUnit := by
  obtain ⟨⟨a1, a2⟩, ⟨a3, a4⟩, a5, a6⟩ := ha
  obtain ⟨⟨b1, b2⟩, ⟨b3, b4⟩, b5, b6⟩ := hb
  obtain ⟨⟨c1, c2⟩, ⟨c3, c4⟩, c5, c6⟩ := hc
  obtain ⟨⟨d1, d2⟩, ⟨d3, d4⟩, d5, d6⟩ := hd
  simp only [Vec3.inUnit, Vec3.add_def, Vec3.scale]
  refine ⟨⟨?_, ?_⟩, ⟨?_, ?_⟩, ?_, ?_⟩ <;> linarith

/-- For a channel between 0 and 1 the byte stored is `floor(255*c)`, which lies in 0..255,
so neither the truncation nor the conversion to `unsigned char` changes it. -/
theorem toByte_of_unit (c : ℚ) (h0 : 0 ≤ c) (h1 : c ≤ 1) :
    (toByte c : Int) = ⌊255 * c⌋ ∧ 0 ≤ ⌊255 * c⌋ ∧ ⌊255 * c⌋ ≤ 255 := by
  have hnn : (0 : ℚ) ≤ 255 * c := by positivity
  have hfl0 : 0 ≤ ⌊255 * c⌋ := Int.floor_nonneg.mpr hnn
  have hfl1 : ⌊255 * c⌋ ≤ 255 := by
    have hle : (255 * c : ℚ) ≤ ((255 : Int) : ℚ) := by
      push_cast
      linarith
    have := Int.floor_le_floor hle
    rwa [Int.floor_intCast] at this
  refine ⟨?_, hfl0, hfl1⟩
  unfold toByte toInt
  rw [if_pos hnn]
  omega

/-- The colour returned by `tracePixel` has every channel between 0 and 1. -/
theorem tracePixel_inUnit (rt : RayTracer) (i j : Int) (ctr : Nat) :
    (tracePixel rt i j ctr).1.inUnit := by
  unfold tracePixel
  by_cases hl : rt.sceneLoaded = true
  · by_cases haa : rt.aaSwitch = true
    · simp only [hl, haa, Bool.not_true, Bool.false_eq_true, if_false, if_true]
      exact average_inUnit _ _ _ _ (trace_inUnit _ _ _ _ _) (trace_inUnit _ _ _ _ _)
        (trace_inUnit _ _ _ _ _) (trace_inUnit _ _ _ _ _)
    · simp only [hl, haa, Bool.not_true, Bool.false_eq_true, if_false]
      exact trace_inUnit _ _ _ _ _
  · simp only [Bool.not_eq_true] at hl
    simp [hl, Vec3.inUnit]

/-- The bytes `tracePixel` writes are the three channels of the colour it returns, each
through `toByte`; nothing is written when no scene is loaded. -/
theorem tracePixel_written (rt : RayTracer) (i j : Int) (ctr : Nat) :
    (tracePixel rt i j ctr).2 =
      if rt.sceneLoaded then
        some (toByte (tracePixel rt i j ctr).1.x, toByte (tracePixel rt i j ctr).1.y,
          toByte (tracePixel rt i j ctr).1.z)
      else none := by
  unfold tracePixel
  by_cases hl : rt.sceneLoaded = true
  · simp [hl]
  · simp only [Bool.not_eq_true] at hl
    simp [hl]

/-- C5: whatever `traceRay` returns, `trace` returns a colour with every channel in [0,1];
with anti-aliasing on or off the colour `tracePixel` computes has every channel in [0,1],
the three bytes it writes are those channels through the store `(int)(255.0 * c)`, and for
each channel `c` that store yields `floor(255*c)`, a value in 0..255. -/
theorem tracePixel_bytes_in_range (rt : RayTracer) (i j : Int) (ctr : Nat) :
    (∀ (x y : ℚ) (pixel : Int), (trace rt x y pixel ctr).inUnit) ∧
    (tracePixel rt i j ctr).1.inUnit ∧
    ((tracePixel rt i j ctr).2 =
      if rt.sceneLoaded then
        some (toByte (tracePixel rt i j ctr).1.x, toByte (tracePixel rt i j ctr).1.y,
          toByte (tracePixel rt i j ctr).1.z)
      else none) ∧
    ((toByte (tracePixel rt i j ctr).1.x : Int) = ⌊255 * (tracePixel rt i j ctr).1.x⌋ ∧
      0 ≤ ⌊255 * (tracePixel rt i j ctr).1.x⌋ ∧ ⌊255 * (tracePixel rt i j ctr).1.x⌋ ≤ 255) ∧
    ((toByte (tracePixel rt i j ctr).1.y : Int) = ⌊255 * (tracePixel rt i j ctr).1.y⌋ ∧
      0 ≤ ⌊255 * (tracePixel rt i j ctr).1.y⌋ ∧ ⌊255 * (tracePixel rt i j ctr).1.y⌋ ≤ 255) ∧
    ((toByte (tracePixel rt i j ctr).1.z : Int) = ⌊255 * (tracePixel rt i j ctr).1.z⌋ ∧
      0 ≤ ⌊255 * (tracePixel rt i j ctr).1.z⌋ ∧ ⌊255 * (tracePixel rt i j ctr).1.z⌋ ≤ 255) := by
  obtain ⟨⟨hx0, hx1⟩, ⟨hy0, hy1⟩, hz0, hz1⟩ := tracePixel_inUnit rt i j ctr
  exact ⟨fun x y pixel => trace_inUnit rt x y pixel ctr, tracePixel_inUnit rt i j ctr,
    tracePixel_written rt i j ctr, toByte_of_unit _ hx0 hx1, toByte_of_unit _ hy0 hy1,
    toByte_of_unit _ hz0 hz1⟩

/-! ### Phong shading -/

/-- With the exponent 2, `pow` is the square. -/
theorem pow_two_exponent (x : ℚ) : pow x 2 = x * x := by
  have h : ⌊(2 : ℚ)⌋ = 2 := by
    rw [Int.floor_eq_iff]
    norm_num
  unfold pow
  rw [h]
  exact zpow_two x

/-- C11, evaluated on the code: a surface with normal (0,0,1), specular coefficient 1 and
shininess 2, lit by `highLight` and seen along `obliqueRay`. The cosine
`dot(reflectVec, -rayDirection)` is -16/65, negative, yet `Material::shade` returns the
specular colour 256/4225 per channel, where the Phong formula of the specification gives
black. -/
theorem shade_specular_for_negative_cosine :
    dot (mirrorDirection (-(highLight.getDirection (obliqueRay.at shinyHit.t))) shinyHit.N)
        (-obliqueRay.d) = -16 / 65 ∧
    shinyMaterial.shade oneLightScene obliqueRay shinyHit
      = ⟨256 / 4225, 256 / 4225, 256 / 4225⟩ ∧
    phongSpec shinyMaterial oneLightScene obliqueRay shinyHit = ⟨0, 0, 0⟩ := by
  refine ⟨?_, ?_, ?_⟩
  · norm_num [mirrorDirection, highLight, obliqueRay, shinyHit, dot, Vec3.scale,
      Vec3.sub_def, Vec3.neg_def]
  · norm_num [Material.shade, shadeStep, oneLightScene, highLight, obliqueRay, shinyHit,
      shinyMaterial, Material.ke, Material.ka, Material.kd, Material.ks, Material.shininess,
      MaterialParameter.value, constParam, maxScalar, pow_two_exponent, dot, Vec3.scale,
      Vec3.add_def, Vec3.sub_def, Vec3.mul_def, Ray.at]
  · norm_num [phongSpec, phongLightSpec, oneLightScene, highLight, obliqueRay, shinyHit,
      shinyMaterial, Material.ke, Material.ka, Material.kd, Material.ks, Material.shininess,
      MaterialParameter.value, constParam, pow_two_exponent, dot, Vec3.scale,
      Vec3.add_def, Vec3.sub_def, Vec3.mul_def, Vec3.neg_def, Ray.at]

/-- A light whose shadow attenuation at the hit point is zero leaves `phong` unchanged. -/
theorem shadeStep_shadowed (m : Material) (r : Ray) (i : Isect) (phong : Vec3) (pLight : Light)
    (h : pLight.shadowAttenuation r (r.at i.t) = ⟨0, 0, 0⟩) :
    shadeStep m r i phong pLight = phong := by
  unfold shadeStep
  simp only [h, Vec3.scale, Vec3.add_def, Vec3.mul_def, mul_zero, zero_mul, add_zero]

/-- C12: when the shadow attenuation of a light at the hit point is 0 in every channel,
`Material::shade` returns what it returns for the same scene without that light, whatever
the colour, direction and distance attenuation of the light. -/
theorem shade_shadowed_light_vanishes (m : Material) (ambient : Vec3)
    (before after : List Light) (pLight : Light) (r : Ray) (i : Isect)
    (h : pLight.shadowAttenuation r (r.at i.t) = ⟨0, 0, 0⟩) :
    m.shade ⟨ambient, before ++ pLight :: after⟩ r i = m.shade ⟨ambient, before ++ after⟩ r i := by
  unfold Material.shade
  simp only [List.foldl_append, List.foldl_cons, shadeStep_shadowed m r i _ pLight h]

/-- C12 at a concrete input: `shadowedLight` after `highLight` adds nothing. -/
theorem shade_shadowed_light_vanishes_witness :
    shadowedLight.shadowAttenuation obliqueRay (obliqueRay.at shinyHit.t) = ⟨0, 0, 0⟩ ∧
    shinyMaterial.shade ⟨⟨0, 0, 0⟩, [highLight] ++ shadowedLight :: []⟩ obliqueRay shinyHit
      = shinyMaterial.shade ⟨⟨0, 0, 0⟩, [highLight] ++ []⟩ obliqueRay shinyHit :=
  ⟨rfl, shade_shadowed_light_vanishes shinyMaterial ⟨0, 0, 0⟩ [highLight] [] shadowedLight
    obliqueRay shinyHit rfl⟩

/-! ### Depth and threshold of the recursion -/

/-- A hit with a depth of 0 or more, in full: the reflection ray is always traced, the
transmission ray when `length(kt) != 0`, both with `depth - 1`. -/
theorem traceRay_hit_nonneg (rt : RayTracer) (r : Ray) (thresh : Vec3) (depth : Int)
    (i : Isect) (hhit : rt.intersect r = some i) (hd : 0 ≤ depth) :
    traceRay rt r thresh depth =
      if length (i.material.kt i) ≠ 0 then
        ⟨rt.shade i.material r i
            + i.material.kr i * (Vec3.zero + (traceRay rt (refRay r i) thresh (depth - 1)).color)
            + i.material.kt i
              * (Vec3.zero + (traceRay rt (transmitRay r i) thresh (depth - 1)).color),
          1 + (traceRay rt (refRay r i) thresh (depth - 1)).shades
            + (traceRay rt (transmitRay r i) thresh (depth - 1)).shades,
          (refRay r i, depth - 1) :: (traceRay rt (refRay r i) thresh (depth - 1)).rays
            ++ (transmitRay r i, depth - 1)
              :: (traceRay rt (transmitRay r i) thresh (depth - 1)).rays⟩
      else
        ⟨rt.shade i.material r i
            + i.material.kr i * (Vec3.zero + (traceRay rt (refRay r i) thresh (depth - 1)).color),
          1 + (traceRay rt (refRay r i) thresh (depth - 1)).shades,
          (refRay r i, depth - 1) :: (traceRay rt (refRay r i) thresh (depth - 1)).rays⟩ := by
  rw [traceRay]
  simp only [hhit, if_pos hd]

/-- With a negative depth the threshold plays no part. -/
theorem traceRay_neg_thresh (rt : RayTracer) (r : Ray) (t1 t2 : Vec3) (depth : Int)
    (hd : depth < 0) : traceRay rt r t1 depth = traceRay rt r t2 depth := by
  cases hi : rt.intersect r with
  | none => rw [traceRay_miss rt r t1 depth hi, traceRay_miss rt r t2 depth hi]
  | some i => rw [traceRay_hit_neg rt r t1 depth i hi hd, traceRay_hit_neg rt r t2 depth i hi hd]

/-- The threshold plays no part at any depth below a given bound. -/
theorem traceRay_thresh_below (rt : RayTracer) (t1 t2 : Vec3) (n : Nat) :
    ∀ (depth : Int) (r : Ray), depth + 1 ≤ (n : Int) →
      traceRay rt r t1 depth = traceRay rt r t2 depth := by
  induction n with
  | zero =>
    intro depth r h
    exact traceRay_neg_thresh rt r t1 t2 depth (by omega)
  | succ n ih =>
    intro depth r h
    by_cases hd : 0 ≤ depth
    · cases hi : rt.intersect r with
      | none => rw [traceRay_miss rt r t1 depth hi, traceRay_miss rt r t2 depth hi]
      | some i =>
        rw [traceRay_hit_nonneg rt r t1 depth i hi hd, traceRay_hit_nonneg rt r t2 depth i hi hd,
          ih (depth - 1) (refRay r i) (by push_cast at h; omega),
          ih (depth - 1) (transmitRay r i) (by push_cast at h; omega)]
    · exact traceRay_neg_thresh rt r t1 t2 depth (by omega)

/-- Every ray handed to a recursive call carries a depth argument of at least -1 and below
the depth of the call that started the recursion. -/
theorem traceRay_rays_depth_bounds (rt : RayTracer) (thresh : Vec3) (n : Nat) :
    ∀ (depth : Int) (r : Ray), depth + 1 ≤ (n : Int) →
      ∀ q ∈ (traceRay rt r thresh depth).rays, -1 ≤ q.2 ∧ q.2 < depth := by
  induction n with
  | zero =>
    intro depth r h q hq
    cases hi : rt.intersect r with
    | none =>
      rw [traceRay_miss rt r thresh depth hi] at hq
      cases hc : rt.cubemap <;> rw [hc] at hq <;> simp at hq
    | some i =>
      rw [traceRay_hit_neg rt r thresh depth i hi (by omega)] at hq
      simp at hq
  | succ n ih =>
    intro depth r h q hq
    cases hi : rt.intersect r with
    | none =>
      rw [traceRay_miss rt r thresh depth hi] at hq
      cases hc : rt.cubemap <;> rw [hc] at hq <;> simp at hq
    | some i =>
      by_cases hd : 0 ≤ depth
      · have h1 := ih (depth - 1) (refRay r i) (by push_cast at h; omega)
        have h2 := ih (depth - 1) (transmitRay r i) (by push_cast at h; omega)
        rw [traceRay_hit_nonneg rt r thresh depth i hi hd] at hq
        split_ifs at hq
        · simp only [List.cons_append, List.mem_cons, List.mem_append] at hq
          rcases hq with rfl | hq | rfl | hq
          · exact ⟨by simp; omega, by simp⟩
          · exact ⟨(h1 q hq).1, by have := (h1 q hq).2; omega⟩
          · exact ⟨by simp; omega, by simp⟩
          · exact ⟨(h2 q hq).1, by have := (h2 q hq).2; omega⟩
        · simp only [List.mem_cons] at hq
          rcases hq with rfl | hq
          · exact ⟨by simp; omega, by simp⟩
          · exact ⟨(h1 q hq).1, by have := (h1 q hq).2; omega⟩
      · rw [traceRay_hit_neg rt r thresh depth i hi (by omega)] at hq
        simp at hq

/-- C15, evaluated on the code: in the scene `mirrorRoom`, `traceRay` started with depth 1
makes two nested recursive calls, with the depth arguments 0 and -1: the recursion does not
stop at depth 0 and the chain of nested calls has length 3, one more than `d + 1`. -/
theorem traceRay_recurses_below_zero :
    ((traceRay mirrorRoom downRay ⟨1, 1, 1⟩ 1).rays).map (fun q => q.2) = [0, -1] ∧
    (traceRay mirrorRoom downRay ⟨1, 1, 1⟩ 1).shades = 3 := by
  have hkt : length (floorHit.material.kt floorHit) = 0 := length_zero_vec
  have h1 := traceRay_hit_opaque mirrorRoom downRay ⟨1, 1, 1⟩ 1 floorHit rfl (by norm_num) hkt
  have h0 := traceRay_hit_opaque mirrorRoom (refRay downRay floorHit) ⟨1, 1, 1⟩ (1 - 1) floorHit
    rfl (by norm_num) hkt
  have hn := traceRay_hit_neg mirrorRoom (refRay (refRay downRay floorHit) floorHit) ⟨1, 1, 1⟩
    (1 - 1 - 1) floorHit rfl (by norm_num)
  rw [hn] at h0
  rw [h0] at h1
  rw [h1]
  exact ⟨by norm_num, by norm_num⟩

/-- C16, as the code has it: `traceRay` never reads the threshold. For every scene, ray,
depth and any two thresholds it returns the same colour, makes the same number of shade
evaluations and traces the same rays; and `traceImage` produces the same pixels for any two
thresholds. -/
theorem traceRay_thresh_irrelevant (rt : RayTracer) (r : Ray) (t1 t2 : Vec3) (depth : Int)
    (w h bs : Int) (thresh1 thresh2 : ℚ) :
    traceRay rt r t1 depth = traceRay rt r t2 depth ∧
    traceImage rt w h bs thresh1 = traceImage rt w h bs thresh2 :=
  ⟨traceRay_thresh_below rt t1 t2 (depth + 1).toNat depth r (by omega), rfl⟩

/-- C16 as stated fails: no scene, ray and depth give different traced rays for two
thresholds; and in `mirrorRoom`, with the threshold (2,2,2) above the attenuation (1,1,1)
that the ray carries, `traceRay` still spawns the reflection ray. -/
theorem threshold_is_no_cutoff :
    (¬ ∃ (rt : RayTracer) (r : Ray) (depth : Int) (t1 t2 : Vec3),
      (traceRay rt r t1 depth).rays ≠ (traceRay rt r t2 depth).rays) ∧
    downRay.atten = ⟨1, 1, 1⟩ ∧
    (traceRay mirrorRoom downRay ⟨2, 2, 2⟩ 0).rays = [(refRay downRay floorHit, -1)] := by
  refine ⟨?_, rfl, ?_⟩
  · rintro ⟨rt, r, depth, t1, t2, hne⟩
    exact hne (by rw [traceRay_thresh_below rt t1 t2 (depth + 1).toNat depth r (by omega)])
  · have hkt : length (floorHit.material.kt floorHit) = 0 := length_zero_vec
    rw [ traceRay_hit_opaque mirrorRoom downRay ⟨2, 2, 2⟩ 0 floorHit rfl le_rfl hkt,
      traceRay_hit_neg mirrorRoom (refRay downRay floorHit) ⟨2, 2, 2⟩ (0 - 1) floorHit rfl
        (by norm_num)]
    norm_num

/-! ### Refraction -/

/-- The ray traced for the transmissive term, in terms of the oriented normal and the
index ratio: the mirror ray when `dot(refractD, rayDir) == 0`, else the refracted ray. -/
theorem transmitRay_eq (r : Ray) (i : Isect) :
    transmitRay r i =
      if dot (refract r.d (orientedNormal r i) (indexRatio r i)) r.d = 0 then
        ⟨r.at i.t, reflectDirection r.d i.N, r.pixel, r.ctr, r.atten, RayType.REFRACTION⟩
      else
        ⟨r.at i.t, refract r.d (orientedNormal r i) (indexRatio r i), r.pixel, r.ctr, r.atten,
          RayType.REFRACTION⟩ := by
  unfold transmitRay orientedNormal indexRatio
  by_cases h : dot r.d i.N > 0 <;> simp [h]

/-- The dot product of the zero vector with any vector is zero. -/
theorem dot_zero_left (v : Vec3) : dot Vec3.zero v = 0 := by
  simp [dot, Vec3.zero]

/-- When Snell's law has no real solution, `glm::refract` returns the zero vector. -/
theorem refract_of_tir (I N : Vec3) (eta : ℚ) (h : eta ^ 2 * (1 - (dot N I) ^ 2) > 1) :
    refract I N eta = Vec3.zero := by
  unfold refract
  have hk : 1 - eta * eta * (1 - dot N I * dot N I) < 0 := by nlinarith
  simp only [hk, if_true]

/-- A vector whose dot product with itself is zero is the zero vector. -/
theorem eq_zero_of_dot_self (v : Vec3) (h : dot v v = 0) : v = ⟨0, 0, 0⟩ := by
  obtain ⟨x, y, z⟩ := v
  unfold dot at h
  have hx : x = 0 := by nlinarith [sq_nonneg x, sq_nonneg y, sq_nonneg z]
  have hy : y = 0 := by nlinarith [sq_nonneg x, sq_nonneg y, sq_nonneg z]
  have hz : z = 0 := by nlinarith [sq_nonneg x, sq_nonneg y, sq_nonneg z]
  simp [hx, hy, hz]

/-- A hit with a depth of 0 or more on a material with `length(kt) != 0`: the ray
`transmitRay` is handed to a recursive call with `depth - 1`, and its colour enters the
result weighted by `kt`. -/
theorem traceRay_transmits (rt : RayTracer) (r : Ray) (thresh : Vec3) (depth : Int)
    (i : Isect) (hhit : rt.intersect r = some i) (hd : 0 ≤ depth)
    (hkt : length (i.material.kt i) ≠ 0) :
    (transmitRay r i, depth - 1) ∈ (traceRay rt r thresh depth).rays ∧
    (traceRay rt r thresh depth).color =
      rt.shade i.material r i
        + i.material.kr i * (Vec3.zero + (traceRay rt (refRay r i) thresh (depth - 1)).color)
        + i.material.kt i
          * (Vec3.zero + (traceRay rt (transmitRay r i) thresh (depth - 1)).color) := by
  rw [traceRay_hit_nonneg rt r thresh depth i hhit hd, if_pos hkt]
  exact ⟨by simp, rfl⟩

/-- C13: for every hit with a depth of 0 or more on a material with non-zero transmissive
coefficient, with a unit normal and a non-zero ray direction, where Snell's law has no real
solution (`eta^2 * (1 - dot(n,d)^2) > 1` for the oriented normal `n` and the index ratio
`eta`): the ray traced for the transmissive term has the mirror direction `d - 2N(d.N)`,
which is not the zero vector, and its colour enters the result weighted by `kt`. -/
theorem tir_traces_mirror_ray (rt : RayTracer) (r : Ray) (thresh : Vec3) (depth : Int)
    (i : Isect) (hhit : rt.intersect r = some i) (hdepth : 0 ≤ depth)
    (hkt : length (i.material.kt i) ≠ 0) (hN : dot i.N i.N = 1) (hdir : r.d ≠ ⟨0, 0, 0⟩)
    (htir : (indexRatio r i) ^ 2 * (1 - (dot (orientedNormal r i) r.d) ^ 2) > 1) :
    (transmitRay r i).d = mirrorDirection r.d i.N ∧
    mirrorDirection r.d i.N ≠ ⟨0, 0, 0⟩ ∧
    (transmitRay r i, depth - 1) ∈ (traceRay rt r thresh depth).rays ∧
    (traceRay rt r thresh depth).color =
      rt.shade i.material r i
        + i.material.kr i * (Vec3.zero + (traceRay rt (refRay r i) thresh (depth - 1)).color)
        + i.material.kt i
          * (Vec3.zero + (traceRay rt (transmitRay r i) thresh (depth - 1)).color) := by
  have ht := traceRay_transmits rt r thresh depth i hhit hdepth hkt
  refine ⟨?_, ?_, ht.1, ht.2⟩
  · rw [transmitRay_eq, refract_of_tir _ _ _ htir, dot_zero_left, if_pos rfl,
      reflectDirection_eq_mirror]
  · intro hzero
    apply hdir
    apply eq_zero_of_dot_self
    rw [← dot_mirror_mirror r.d i.N hN, hzero]
    norm_num [dot]

/-- The transmissive coefficient of the glass has a non-zero length. -/
theorem glass_kt_length : length (glassHit.material.kt glassHit) ≠ 0 := by
  rw [Ne, length_eq_zero_iff]
  simp [glassHit, glassMaterial, Material.kt, MaterialParameter.value, constParam]

/-- C13 at a concrete input: the ray `exitingRay` leaves the glass of index 2 at a shallow
angle, `eta^2 * (1 - dot(n,d)^2)` is 64/25, and the mirror ray is traced. -/
theorem tir_traces_mirror_ray_witness :
    (indexRatio exitingRay glassHit) ^ 2
        * (1 - (dot (orientedNormal exitingRay glassHit) exitingRay.d) ^ 2) = 64 / 25 ∧
    (transmitRay exitingRay glassHit).d = ⟨4 / 5, 0, -3 / 5⟩ ∧
    (transmitRay exitingRay glassHit, 0 - 1) ∈ (traceRay glassRoom exitingRay ⟨1, 1, 1⟩ 0).rays :=
  have hval : (indexRatio exitingRay glassHit) ^ 2
      * (1 - (dot (orientedNormal exitingRay glassHit) exitingRay.d) ^ 2) = 64 / 25 := by
    norm_num [indexRatio, orientedNormal, exitingRay, glassHit, glassMaterial, Material.index,
      dot, Vec3.neg_def]
  have hm : mirrorDirection exitingRay.d glassHit.N = ⟨4 / 5, 0, -3 / 5⟩ := by
    norm_num [mirrorDirection, exitingRay, glassHit, dot, Vec3.scale, Vec3.sub_def]
  have h := tir_traces_mirror_ray glassRoom exitingRay ⟨1, 1, 1⟩ 0 glassHit rfl le_rfl
    glass_kt_length (by norm_num [dot, glassHit]) (by simp [exitingRay])
    (by rw [hval]; norm_num)
  ⟨hval, h.1.trans hm, h.2.2.1⟩

/-- Truncating 1/2 to an `int` gives 0. -/
theorem toInt_half : toInt (1 / 2) = 0 := by
  unfold toInt
  rw [if_pos (by norm_num), Int.floor_eq_iff]
  norm_num

/-- The plane x = 1/2 sends the slab 1/4..2/5 left and the slab 3/5..1 right. -/
theorem partitionLists_two_slabs :
    partitionLists halfPlane [slab (1 / 4) (2 / 5), slab (3 / 5) 1]
      = ([slab (1 / 4) (2 / 5)], [slab (3 / 5) 1]) := by
  norm_num [partitionLists, partitionStep, halfPlane, zeroPlane, slab,
    Geometry.getBoundingBox, BoundingBox.getMin, BoundingBox.getMax, Vec3.idx]

/-- Two slabs on either side of the plane x = 1/2 with a leaf size of 1: whenever the
incremented counter differs from the limit, `buildTree` returns a split node over two
leaves, and the counter has advanced by one. -/
theorem buildTree_two_slabs (depth depthLimit : Int) (hne : depth + 1 ≠ depthLimit) :
    buildTree halfPlane 2 depth [slab (1 / 4) (2 / 5), slab (3 / 5) 1] cube depthLimit 1
      = some (Node.SplitNode 0 0 (Node.LeafNode [slab (1 / 4) (2 / 5)])
          (Node.LeafNode [slab (3 / 5) 1]), depth + 1) := by
  have hsz2 : ¬ ([slab (1 / 4) (2 / 5), slab (3 / 5) 1].length ≤ toSizeT 1) := by
    norm_num [toSizeT]
  have hsz1 : ∀ g : Geometry, [g].length ≤ toSizeT 1 := by
    intro g
    norm_num [toSizeT]
  have hpos : ((toInt halfPlane.position : Int) : ℚ) = 0 := by
    have h : halfPlane.position = 1 / 2 := rfl
    rw [h, toInt_half]
    norm_num
  unfold buildTree
  rw [if_neg hsz2]
  simp only [findBestSplitPlane_eq_uninit, partitionLists_two_slabs, if_neg hne]
  unfold buildTree
  simp only [hsz1, if_true, SplitNode.new, hpos]
  norm_num [halfPlane, zeroPlane]

/-- C9, evaluated on the code: two primitives on either side of the plane x = 1/2 (the
plane read from the uninitialised storage) with a leaf size of 1, so more primitives than
the threshold. Called on a fresh tree with a depth limit of 0, and called with the counter
at 5 and a limit of 5, no depth remains in either call, yet `buildTree` returns a split
node and not a leaf holding the two primitives. -/
theorem buildTree_splits_without_depth :
    buildTree halfPlane 2 0 [slab (1 / 4) (2 / 5), slab (3 / 5) 1] cube 0 1
      = some (Node.SplitNode 0 0 (Node.LeafNode [slab (1 / 4) (2 / 5)])
          (Node.LeafNode [slab (3 / 5) 1]), 1) ∧
    buildTree halfPlane 2 5 [slab (1 / 4) (2 / 5), slab (3 / 5) 1] cube 5 1
      = some (Node.SplitNode 0 0 (Node.LeafNode [slab (1 / 4) (2 / 5)])
          (Node.LeafNode [slab (3 / 5) 1]), 6) :=
  ⟨buildTree_two_slabs 0 0 (by norm_num), buildTree_two_slabs 5 5 (by norm_num)⟩

/-- C18, evaluated on the code: two primitives on either side of the plane x = 1/2 (the
plane read from the uninitialised storage), leaf size 1, depth limit 5. `buildTree` splits
them with that plane, but the split node it returns stores the position 0, not 1/2, and the
primitive in its left list has its minimum 1/4 above the stored position. -/
theorem splitNode_truncates_position :
    (findBestSplitPlane halfPlane [slab (1 / 4) (2 / 5), slab (3 / 5) 1] cube).position = 1 / 2 ∧
    buildTree halfPlane 2 0 [slab (1 / 4) (2 / 5), slab (3 / 5) 1] cube 5 1
      = some (Node.SplitNode 0 0 (Node.LeafNode [slab (1 / 4) (2 / 5)])
          (Node.LeafNode [slab (3 / 5) 1]), 1) ∧
    ¬ ((slab (1 / 4) (2 / 5)).getBoundingBox.getMin.idx 0 ≤ 0) := by
  refine ⟨by rw [findBestSplitPlane_eq_uninit]; rfl, ?_, ?_⟩
  · have hsz2 : ¬ ([slab (1 / 4) (2 / 5), slab (3 / 5) 1].length ≤ toSizeT 1) := by
      norm_num [toSizeT]
    have hsz1 : ∀ g : Geometry, [g].length ≤ toSizeT 1 := by
      intro g
      norm_num [toSizeT]
    have hpos : ((toInt halfPlane.position : Int) : ℚ) = 0 := by
      have h : halfPlane.position = 1 / 2 := rfl
      rw [h, toInt_half]
      norm_num
    unfold buildTree
    rw [if_neg hsz2]
    simp only [findBestSplitPlane_eq_uninit, partitionLists_two_slabs]
    unfold buildTree
    simp only [hsz1, if_true, SplitNode.new, hpos]
    norm_num [halfPlane, zeroPlane]
  · norm_num [slab, Geometry.getBoundingBox, BoundingBox.getMin, Vec3.idx]

/-- A primitive with `min = max = position` on the split axis is pushed on `rightList`
only, whatever its normal: the value `N` tested by the loop is a length, never negative. -/
theorem partitionStep_coplanar (bestPlane : Plane) (lists : List Geometry × List Geometry)
    (obj : Geometry)
    (hmin : obj.getBoundingBox.getMin.idx bestPlane.axis = bestPlane.position)
    (hmax : obj.getBoundingBox.getMax.idx bestPlane.axis = bestPlane.position) :
    partitionStep bestPlane lists obj = (lists.1, lists.2 ++ [obj]) := by
  have hN : ¬ (length obj.getNormal < 0) := not_lt.mpr (Rat.sqrt_nonneg _)
  have hN2 : length obj.getNormal ≥ 0 := Rat.sqrt_nonneg _
  unfold partitionStep
  simp only [hmin, hmax, lt_irrefl, gt_iff_lt, if_false, hN, and_false, and_self, hN2,
    true_and, if_true]

/-- C19, evaluated on the code: the flat primitive `flatGeom` lies exactly on the plane
x = 0 (`min = max = position`) and its reference normal (-1,0,0) points to the negative
side, yet the partition loop puts it in `rightList` and not in `leftList`. -/
theorem coplanar_negative_normal_goes_right :
    flatGeom.getBoundingBox.getMin.idx zeroPlane.axis = zeroPlane.position ∧
    flatGeom.getBoundingBox.getMax.idx zeroPlane.axis = zeroPlane.position ∧
    flatGeom.getNormal.idx zeroPlane.axis < 0 ∧
    partitionLists zeroPlane [flatGeom] = ([], [flatGeom]) := by
  have hmin : flatGeom.getBoundingBox.getMin.idx zeroPlane.axis = zeroPlane.position := by
    norm_num [flatGeom, zeroPlane, Geometry.getBoundingBox, BoundingBox.getMin, Vec3.idx]
  have hmax : flatGeom.getBoundingBox.getMax.idx zeroPlane.axis = zeroPlane.position := by
    norm_num [flatGeom, zeroPlane, Geometry.getBoundingBox, BoundingBox.getMax, Vec3.idx]
  refine ⟨hmin, hmax, ?_, ?_⟩
  · norm_num [flatGeom, zeroPlane, Geometry.getNormal, Vec3.idx]
  · unfold partitionLists
    rw [List.foldl_cons, partitionStep_coplanar zeroPlane _ flatGeom hmin hmax]
    rfl

/-! ### Textures -/

/-- With loaded data, `getPixelAt` reads the three bytes at `pos`, `pos+1`, `pos+2`. -/
theorem getPixelAt_loaded (tm : TextureMap) (data : List Nat) (x y : Int)
    (hdata : tm.data = some data) :
    tm.getPixelAt x y =
      ⟨readByte data (tm.pixelPos x y) / 255, readByte data (tm.pixelPos x y + 1) / 255,
        readByte data (tm.pixelPos x y + 2) / 255⟩ := by
  unfold TextureMap.getPixelAt
  simp only [hdata]

/-- A read at a position that is not negative gives the byte stored there. -/
theorem readByte_of_getD (data : List Nat) (pos : Int) (b : Nat) (h0 : 0 ≤ pos)
    (hb : data.getD pos.toNat 0 = b) : readByte data pos = (b : ℚ) := by
  unfold readByte
  rw [if_pos h0, hb]

/-- C14, evaluated on the code: `getMappedValue` returns (1,1,1) for every texture and
coordinate. On the texture `twoTexels`, whose texels are black and white, it returns the
same value at (0,0) and at (1,0); on the all-black texture `blackTexture` it returns white
at (1/2,1/2), which no interpolation of its four black texels gives; and a material
parameter backed by a texture evaluates to that constant. -/
theorem getMappedValue_ignores_texels :
    (∀ (tm : TextureMap) (coord : ℚ × ℚ), tm.getMappedValue coord = ⟨1, 1, 1⟩) ∧
    twoTexels.getPixelAt 0 0 = ⟨0, 0, 0⟩ ∧ twoTexels.getPixelAt 1 0 = ⟨1, 1, 1⟩ ∧
    twoTexels.getMappedValue (0, 0) = twoTexels.getMappedValue (1, 0) ∧
    blackTexture.getPixelAt 0 0 = ⟨0, 0, 0⟩ ∧ blackTexture.getPixelAt 1 0 = ⟨0, 0, 0⟩ ∧
    blackTexture.getPixelAt 0 1 = ⟨0, 0, 0⟩ ∧ blackTexture.getPixelAt 1 1 = ⟨0, 0, 0⟩ ∧
    blackTexture.getMappedValue (1 / 2, 1 / 2) = ⟨1, 1, 1⟩ ∧
    (∀ (v : Vec3) (uv : ℚ × ℚ),
      MaterialParameter.value ⟨v, some blackTexture⟩ uv = ⟨1, 1, 1⟩) := by
  have hp00 : twoTexels.pixelPos 0 0 = 0 := by decide
  have hp10 : twoTexels.pixelPos 1 0 = 3 := by decide
  have hb00 : blackTexture.pixelPos 0 0 = 0 := by decide
  have hb10 : blackTexture.pixelPos 1 0 = 3 := by decide
  have hb01 : blackTexture.pixelPos 0 1 = 6 := by decide
  have hb11 : blackTexture.pixelPos 1 1 = 9 := by decide
  refine ⟨fun _ _ => rfl, ?_, ?_, rfl, ?_, ?_, ?_, ?_, rfl, fun _ _ => rfl⟩
  · rw [getPixelAt_loaded twoTexels _ 0 0 rfl, hp00,
      readByte_of_getD _ 0 0 (by decide) (by decide),
      readByte_of_getD _ (0 + 1) 0 (by decide) (by decide),
      readByte_of_getD _ (0 + 2) 0 (by decide) (by decide)]
    norm_num
  · rw [getPixelAt_loaded twoTexels _ 1 0 rfl, hp10,
      readByte_of_getD _ 3 255 (by decide) (by decide),
      readByte_of_getD _ (3 + 1) 255 (by decide) (by decide),
      readByte_of_getD _ (3 + 2) 255 (by decide) (by decide)]
    norm_num
  · rw [getPixelAt_loaded blackTexture _ 0 0 rfl, hb00,
      readByte_of_getD _ 0 0 (by decide) (by decide),
      readByte_of_getD _ (0 + 1) 0 (by decide) (by decide),
      readByte_of_getD _ (0 + 2) 0 (by decide) (by decide)]
    norm_num
  · rw [getPixelAt_loaded blackTexture _ 1 0 rfl, hb10,
      readByte_of_getD _ 3 0 (by decide) (by decide),
      readByte_of_getD _ (3 + 1) 0 (by decide) (by decide),
      readByte_of_getD _ (3 + 2) 0 (by decide) (by decide)]
    norm_num
  · rw [getPixelAt_loaded blackTexture _ 0 1 rfl, hb01,
      readByte_of_getD _ 6 0 (by decide) (by decide),
      readByte_of_getD _ (6 + 1) 0 (by decide) (by decide),
      readByte_of_getD _ (6 + 2) 0 (by decide) (by decide)]
    norm_num
  · rw [getPixelAt_loaded blackTexture _ 1 1 rfl, hb11,
      readByte_of_getD _ 9 0 (by decide) (by decide),
      readByte_of_getD _ (9 + 1) 0 (by decide) (by decide),
      readByte_of_getD _ (9 + 2) 0 (by decide) (by decide)]
    norm_num

/-- An `int` result within the 32 bit range is not changed by the wrap-around. -/
theorem wrapInt_of_range (n : Int) (h0 : -2 ^ 31 ≤ n) (h1 : n < 2 ^ 31) : wrapInt n = n := by
  unfold wrapInt
  omega

/-- C20, as the code has it: for a texture with loaded data of size `3*width*height`, a
size that fits an `int` (below 2^31), `width >= 1`, `height >= 1`, and every `x >= 0`,
`y >= 0`, also beyond the image: the position `pos` computed by `getPixelAt` is that of
the texel at `(min(x, width-1), min(y, height-1))`, it satisfies `0 <= pos` and
`pos + 2 < 3*width*height`, so the three reads at `pos`, `pos+1`, `pos+2` fall inside the
data. -/
theorem getPixelAt_in_bounds (tm : TextureMap) (data : List Nat) (x y : Int)
    (hdata : tm.data = some data)
    (hlen : (data.length : Int) = 3 * tm.width * tm.height)
    (hw : 1 ≤ tm.width) (hh : 1 ≤ tm.height) (hx : 0 ≤ x) (hy : 0 ≤ y)
    (hint : 3 * tm.width * tm.height < 2 ^ 31) :
    tm.pixelPos x y = (min y (tm.height - 1) * tm.width + min x (tm.width - 1)) * 3 ∧
    0 ≤ tm.pixelPos x y ∧
    tm.pixelPos x y + 2 < 3 * tm.width * tm.height ∧
    tm.pixelPos x y + 2 < (data.length : Int) ∧
    tm.getPixelAt x y =
      ⟨readByte data (tm.pixelPos x y) / 255, readByte data (tm.pixelPos x y + 1) / 255,
        readByte data (tm.pixelPos x y + 2) / 255⟩ := by
  obtain ⟨w, h, d⟩ := tm
  simp only at hdata hlen hw hh hint ⊢
  have hwh : w ≤ w * h := by nlinarith
  have hhw : h ≤ w * h := by nlinarith
  have h3 : 3 * w * h = 3 * (w * h) := by ring
  have hxw : wrapInt (w - 1) = w - 1 := wrapInt_of_range _ (by omega) (by omega)
  have hyh : wrapInt (h - 1) = h - 1 := wrapInt_of_range _ (by omega) (by omega)
  have hxm : (if x ≥ w then wrapInt (w - 1) else x) = min x (w - 1) := by
    split_ifs with hc
    · rw [hxw, min_eq_right (by omega)]
    · rw [min_eq_left (by omega)]
  have hym : (if y ≥ h then wrapInt (h - 1) else y) = min y (h - 1) := by
    split_ifs with hc
    · rw [hyh, min_eq_right (by omega)]
    · rw [min_eq_left (by omega)]
  have hx0 : 0 ≤ min x (w - 1) := le_min hx (by omega)
  have hx1 : min x (w - 1) ≤ w - 1 := min_le_right _ _
  have hy0 : 0 ≤ min y (h - 1) := le_min hy (by omega)
  have hy1 : min y (h - 1) ≤ h - 1 := min_le_right _ _
  have hp0 : 0 ≤ min y (h - 1) * w := by positivity
  have hp1 : min y (h - 1) * w + min x (w - 1) ≤ w * h - 1 := by nlinarith
  have hpos : TextureMap.pixelPos ⟨w, h, d⟩ x y
      = (min y (h - 1) * w + min x (w - 1)) * 3 := by
    unfold TextureMap.pixelPos
    simp only [hxm, hym]
    rw [wrapInt_of_range (min y (h - 1) * w) (by omega) (by omega),
      wrapInt_of_range (min y (h - 1) * w + min x (w - 1)) (by omega) (by omega),
      wrapInt_of_range _ (by omega) (by omega)]
  exact ⟨hpos, by rw [hpos]; omega, by rw [hpos]; omega, by rw [hpos, hlen]; omega,
    getPixelAt_loaded _ data x y hdata⟩

/-- C20 at a concrete input: on the 2 by 1 texture `twoTexels`, reading at x = 7, y = 4 goes
to the last texel, at position 3. -/
theorem getPixelAt_in_bounds_witness :
    twoTexels.pixelPos 7 4 = (min 4 (twoTexels.height - 1) * twoTexels.width
      + min 7 (twoTexels.width - 1)) * 3 ∧
    0 ≤ twoTexels.pixelPos 7 4 ∧
    twoTexels.pixelPos 7 4 + 2 < 3 * twoTexels.width * twoTexels.height ∧
    twoTexels.pixelPos 7 4 = 3 :=
  have h := getPixelAt_in_bounds twoTexels [0, 0, 0, 255, 255, 255] 7 4 rfl (by decide)
    (by decide) (by decide) (by decide) (by decide) (by decide)
  ⟨h.1, h.2.1, h.2.2.1, by decide⟩

/-- C20 as stated fails for a texture whose data does not fit an `int`: the texture
`hugeTexture` has loaded data of size `3*width*height` with `width = height = 50000`, and
for `x = 0`, `y = 49999` the `int` arithmetic of `getPixelAt` wraps around: the position
it computes is -1090084592, below 0. -/
theorem getPixelAt_position_overflows :
    hugeTexture.data = some (List.replicate 7500000000 0) ∧
    ((List.replicate 7500000000 0 : List Nat).length : Int)
      = 3 * hugeTexture.width * hugeTexture.height ∧
    1 ≤ hugeTexture.width ∧ 1 ≤ hugeTexture.height ∧ (0 : Int) ≤ 0 ∧ (0 : Int) ≤ 49999 ∧
    hugeTexture.pixelPos 0 49999 = -1090084592 ∧
    ¬ (0 ≤ hugeTexture.pixelPos 0 49999) := by
  have hpos : hugeTexture.pixelPos 0 49999 = -1090084592 := by decide
  refine ⟨rfl, ?_, by decide, by decide, by decide, by decide, hpos, ?_⟩
  · rw [List.length_replicate]
    decide
  · rw [hpos]
    decide

end Raytracer
